import Mathlib

/-!
Shallow embedding of the Vibe Code Guardian core (checkpoint store,
rollback manager, lane layout engine), translated from the TypeScript
sources `src/checkpointManager.ts`, `src/gitGraphProvider.ts` and the
rollback manager module, together with theorems settling the
specification claims.

Conventions of the embedding:
* JS strings are Lean `String`s; machine numbers are `Nat`.
* `undefined`/optional fields are `Option`; JS truthiness tests on
  optional strings (`if (x)`) are modelled by `strTruthy`, which is
  false for both `none` and the empty string.
* Async side-effecting collaborators (git, filesystem, UI dialogs) are
  passed in as explicit environments; operations that may throw are
  modelled with `Except`.
* JS `Array.prototype.sort` (stable) is modelled with `List.mergeSort`
  (also stable) using the boolean comparator derived from the JS one.
-/

set_option maxHeartbeats 1000000

namespace Guardian

/-- Truthiness of an optional JS string: `undefined` and `""` are falsy. -/
def strTruthy : Option String → Bool
  | none => false
  | some s => s ≠ ""

/-- Update the first element satisfying `p` (JS `find` + mutate). -/
def updateFirst (p : α → Bool) (f : α → α) : List α → List α
  | [] => []
  | a :: rest => if p a then f a :: rest else a :: updateFirst p f rest

/-- `FileChangeType` from `types.ts`. -/
inductive FileChangeType where
  | added | modified | deleted | renamed
deriving DecidableEq, Repr

/-- `CheckpointType` from `types.ts`. -/
inductive CheckpointType where
  | auto | manual | aiGenerated | sessionStart | autoSave
deriving DecidableEq, Repr

/-- `CheckpointSource` from `types.ts`. -/
inductive CheckpointSource where
  | user | copilot | claude | cline | otherAI | autoSave | fileWatcher | unknown
deriving DecidableEq, Repr

/-- `ChangedFile` from `types.ts`. -/
structure ChangedFile where
  path : String
  changeType : FileChangeType
  linesAdded : Nat
  linesRemoved : Nat
  previousContent : Option String := none
  currentContent : Option String := none
deriving DecidableEq, Repr

/-- `Checkpoint` from `types.ts`. -/
structure Checkpoint where
  id : String
  name : String
  description : Option String := none
  timestamp : Nat
  gitCommitHash : Option String := none
  type : CheckpointType
  source : CheckpointSource
  changedFiles : List ChangedFile
  sessionId : String
  parentId : Option String := none
  tags : List String := []
  starred : Bool := false
  branchName : Option String := none
deriving DecidableEq, Repr

/-- `CodingSession` from `types.ts`. -/
structure CodingSession where
  id : String
  name : String
  startTime : Nat
  endTime : Option Nat := none
  isActive : Bool
  branchName : Option String := none
  checkpointIds : List String
  totalFilesChanged : Nat
  aiToolsUsed : List CheckpointSource
deriving DecidableEq, Repr

/-- The settings fields consulted by the checkpoint manager
(`GuardianSettings` in `types.ts`, restricted to the fields the
embedded operations read). -/
structure Settings where
  maxCheckpoints : Nat
  enableGit : Bool
  createSessionBranch : Bool
deriving DecidableEq, Repr

/-- `CheckpointStorageData` from `types.ts` (the `version` field is a
constant `1` in every state the manager produces and is omitted). -/
structure StorageData where
  checkpoints : List Checkpoint
  sessions : List CodingSession
  activeSessionId : Option String := none
  settings : Settings
deriving DecidableEq, Repr

/-- `getSessionCheckpoints`: checkpoints of the given session, sorted by
descending timestamp (stable, as JS `sort` with `b.timestamp - a.timestamp`). -/
def getSessionCheckpoints (sd : StorageData) (sid : String) : List Checkpoint :=
  (sd.checkpoints.filter (fun cp => cp.sessionId == sid)).mergeSort
    (fun a b => b.timestamp ≤ a.timestamp)

/-- The child-update step of `deleteCheckpoint`: a checkpoint whose
`parentId` is the deleted id is re-linked to the deleted node's parent. -/
def reparent (x : String) (pid : Option String) (cp : Checkpoint) : Checkpoint :=
  if cp.parentId = some x then { cp with parentId := pid } else cp

/-- `CheckpointManager.deleteCheckpoint`: re-parents children of the
deleted node, removes its id from its session, removes the node itself;
returns `false` (state unchanged) when the id is unknown. -/
def deleteCheckpoint (sd : StorageData) (id : String) : StorageData × Bool :=
  match sd.checkpoints.find? (fun cp => cp.id == id) with
  | none => (sd, false)
  | some checkpoint =>
    let reparented := sd.checkpoints.map (reparent id checkpoint.parentId)
    let checkpoints := reparented.eraseP (fun cp => cp.id == id)
    let sessions := updateFirst (fun s => s.id == checkpoint.sessionId)
      (fun s => { s with checkpointIds := s.checkpointIds.filter (fun cpId => cpId != id) })
      sd.sessions
    ({ sd with checkpoints := checkpoints, sessions := sessions }, true)

/-- The eviction-selection loop of `enforceCheckpointLimit`: walk the
ascending-timestamp list, collecting ids of non-starred checkpoints until
`total - collected ≤ max`.  `total` is the store size at entry (fixed
during the loop), `deleted` the number collected so far. -/
def pickToDelete (total maxCp : Nat) : List Checkpoint → Nat → List String
  | [], _ => []
  | cp :: rest, deleted =>
    if total - deleted ≤ maxCp then []
    else if !cp.starred then cp.id :: pickToDelete total maxCp rest (deleted + 1)
    else pickToDelete total maxCp rest deleted

/-- `CheckpointManager.enforceCheckpointLimit`: when over the configured
maximum, delete the oldest non-starred checkpoints until at the limit. -/
def enforceCheckpointLimit (sd : StorageData) : StorageData :=
  if sd.checkpoints.length ≤ sd.settings.maxCheckpoints then sd
  else
    let sorted := sd.checkpoints.mergeSort (fun a b => a.timestamp ≤ b.timestamp)
    let toDelete := pickToDelete sd.checkpoints.length sd.settings.maxCheckpoints sorted 0
    toDelete.foldl (fun s id => (deleteCheckpoint s id).1) sd

/-- Result record of `validateCheckpoint`. -/
structure ValidationResult where
  valid : Bool
  issues : List String
  canRollback : Bool
deriving DecidableEq, Repr

/-- Read-only environment of git/filesystem queries used by validation. -/
structure GitQueryEnv where
  commitExists : String → Bool
  fsExists : String → Bool
  fileAtCommit : String → String → Option String

/-- `CheckpointManager.checkFileAccessible`: filesystem first, then the
checkpoint commit when one is present (JS truthiness on the hash). -/
def checkFileAccessible (env : GitQueryEnv) (filePath : String)
    (commitHash : Option String) : Bool :=
  if env.fsExists filePath then true
  else match commitHash with
    | some h => if h ≠ "" then (env.fileAtCommit filePath h).isSome else false
    | none => false

/-- `CheckpointManager.validateCheckpoint`: commit resolution (or stored
content when no commit) decides `canRollback`; file accessibility is
recorded as issues only. -/
def validateCheckpoint (env : GitQueryEnv) (cp : Checkpoint) : ValidationResult :=
  let primary : List String × Bool :=
    match cp.gitCommitHash with
    | some h =>
      if h ≠ "" then
        if env.commitExists h then ([], true)
        else (["Git commit " ++ h.take 7 ++ " not found"], false)
      else
        if cp.changedFiles.any (fun f => f.previousContent.isSome) then ([], true)
        else (["No Git commit and no stored file content"], false)
    | none =>
      if cp.changedFiles.any (fun f => f.previousContent.isSome) then ([], true)
      else (["No Git commit and no stored file content"], false)
  let fileIssues := cp.changedFiles.filterMap (fun f =>
    if checkFileAccessible env f.path cp.gitCommitHash then none
    else some ("File " ++ f.path ++ " not in current state (ok for rollback)"))
  { valid := (primary.1 ++ fileIssues).isEmpty
    issues := primary.1 ++ fileIssues
    canRollback := primary.2 }

/-- `CheckpointManager.cleanupInvalidCheckpoints`: validate every
checkpoint of the entry snapshot, deleting each invalid one. -/
def cleanupInvalidCheckpoints (env : GitQueryEnv) (sd : StorageData) :
    StorageData × Nat :=
  let snapshot := sd.checkpoints
  let final := snapshot.foldl (fun s cp =>
    if (validateCheckpoint env cp).valid then s else (deleteCheckpoint s cp.id).1) sd
  let removed := (snapshot.filter (fun cp => !(validateCheckpoint env cp).valid)).length
  (final, removed)

/-- `getCheckpoint`: lookup by id. -/
def getCheckpoint (sd : StorageData) (id : String) : Option Checkpoint :=
  sd.checkpoints.find? (fun cp => cp.id == id)

/-- `getActiveSession`: the session named by `activeSessionId` (JS
truthiness on the id). -/
def getActiveSession (sd : StorageData) : Option CodingSession :=
  if strTruthy sd.activeSessionId then
    sd.activeSessionId.bind (fun sid => sd.sessions.find? (fun s => s.id == sid))
  else none

/-- One entry of `GitManager.getDetailedChangedFiles`. -/
structure GitFileInfo where
  path : String
  changeType : FileChangeType
  staged : Bool
deriving DecidableEq, Repr

/-- Result of `GitManager.stageAndCommitAll`. -/
structure CommitResult where
  success : Bool
  commitHash : Option String
  changedFiles : List String
deriving DecidableEq, Repr

/-- Environment of one `createCheckpoint` invocation: whether the
workspace is a git repository, and the outcomes of the two fallible git
calls inside the `try` block (`Except.error` models a thrown exception). -/
structure GitEnv where
  isRepo : Bool
  detailed : Except String (List GitFileInfo)
  commit : Except String CommitResult

/-- `mapChangeType`: `renamed` is collapsed to `modified`. -/
def mapChangeType : FileChangeType → FileChangeType
  | .added => .added
  | .deleted => .deleted
  | .renamed => .modified
  | .modified => .modified

/-- `syncChangedFilesWithGit`: the git list wins on path and change type;
line counts and content snapshots are taken from a caller-supplied entry
whose path suffix-matches. -/
def syncChangedFilesWithGit (originalFiles : List ChangedFile)
    (gitFiles : List GitFileInfo) : List ChangedFile :=
  gitFiles.map (fun gitFile =>
    let originalFile := originalFiles.find? (fun f =>
      f.path.endsWith gitFile.path || gitFile.path.endsWith f.path)
    { path := gitFile.path
      changeType := mapChangeType gitFile.changeType
      linesAdded := (originalFile.map (·.linesAdded)).getD 0
      linesRemoved := (originalFile.map (·.linesRemoved)).getD 0
      previousContent := originalFile.bind (·.previousContent)
      currentContent := originalFile.bind (·.currentContent) })

/-- `convertToChangedFiles`: bare paths become `modified` entries. -/
def convertToChangedFiles (filePaths : List String) : List ChangedFile :=
  filePaths.map (fun filePath =>
    { path := filePath, changeType := .modified, linesAdded := 0, linesRemoved := 0 })

/-- The git block of `createCheckpoint` (guard plus `try`/`catch`):
returns the commit hash recorded on the checkpoint (none on any failure)
and the effective changed-file list.  A thrown `getDetailedChangedFiles`
skips the commit; a thrown commit keeps the already-synced file list. -/
def gitSyncPhase (settings : Settings) (env : GitEnv)
    (changedFiles : List ChangedFile) : Option String × List ChangedFile :=
  if settings.enableGit && env.isRepo then
    match env.detailed with
    | .error _ => (none, changedFiles)
    | .ok gitChangedFiles =>
      let acf := if gitChangedFiles.length > 0
                 then syncChangedFilesWithGit changedFiles gitChangedFiles
                 else changedFiles
      match env.commit with
      | .error _ => (none, acf)
      | .ok commitResult =>
        if commitResult.success && strTruthy commitResult.commitHash then
          (commitResult.commitHash,
           if commitResult.changedFiles.length > 0
           then convertToChangedFiles commitResult.changedFiles
           else acf)
        else (none, acf)
  else (none, changedFiles)

/-- The `options` argument of `createCheckpoint`. -/
structure CreateOptions where
  name : Option String := none
  description : Option String := none
  tags : Option (List String) := none

/-- Body of `createCheckpoint` after the ensure-active-session guard:
git sync, parent selection (most recent checkpoint of the active
session), append, session bookkeeping, retention enforcement.  `id`,
`now` and `autoName` stand for `generateId()`, `Date.now()` and
`generateCheckpointName(type, source)`. -/
def createCheckpointCore (sd : StorageData) (env : GitEnv) (id : String)
    (now : Nat) (autoName : String) (type : CheckpointType)
    (source : CheckpointSource) (changedFiles : List ChangedFile)
    (opts : CreateOptions) : StorageData × Checkpoint :=
  let name := match opts.name with
    | some n => if n ≠ "" then n else autoName
    | none => autoName
  let sync := gitSyncPhase sd.settings env changedFiles
  let gitCommitHash := sync.1
  let actualChangedFiles := sync.2
  let sid := sd.activeSessionId.getD ""
  let sessionCheckpoints :=
    if strTruthy sd.activeSessionId then getSessionCheckpoints sd sid else []
  let parentId := sessionCheckpoints.head?.map (·.id)
  let checkpoint : Checkpoint :=
    { id := id, name := name, description := opts.description, timestamp := now
      gitCommitHash := gitCommitHash, type := type, source := source
      changedFiles := actualChangedFiles, sessionId := sid, parentId := parentId
      tags := opts.tags.getD [], starred := false
      branchName := (getActiveSession sd).bind (·.branchName) }
  let sessions :=
    if (getActiveSession sd).isSome then
      updateFirst (fun s => s.id == sid) (fun s =>
        { s with
            checkpointIds := s.checkpointIds ++ [id]
            totalFilesChanged := s.totalFilesChanged + actualChangedFiles.length
            aiToolsUsed :=
              if source ≠ .user ∧ source ≠ .autoSave ∧ source ≠ .fileWatcher ∧
                  source ∉ s.aiToolsUsed
              then s.aiToolsUsed ++ [source] else s.aiToolsUsed })
        sd.sessions
    else sd.sessions
  let sd := { sd with checkpoints := sd.checkpoints ++ [checkpoint],
                      sessions := sessions }
  (enforceCheckpointLimit sd, checkpoint)

/-- `endSession`: stamp the end time, clear the active flag and id. -/
def endSession (sd : StorageData) (now : Nat) : StorageData :=
  match getActiveSession sd with
  | none => sd
  | some session =>
    { sd with
        sessions := updateFirst (fun s => s.id == session.id)
          (fun s => { s with endTime := some now, isActive := false }) sd.sessions
        activeSessionId := none }

/-- Environment of `startSession`: git availability for the optional
session branch, and the git environment of the SessionStart checkpoint
it immediately creates. -/
structure SessionStartEnv where
  isRepo : Bool
  cpEnv : GitEnv

/-- `startSession`: end any active session, register the new one, make it
active, then immediately create a `SessionStart` checkpoint.  `sessId`
and `cpId` stand for the two `generateId()` results, `now`/`cpNow` for
the `Date.now()` readings. -/
def startSession (sd : StorageData) (now : Nat) (sessId : String)
    (nameOpt : Option String) (cpId : String) (cpNow : Nat)
    (env : SessionStartEnv) : StorageData × CodingSession :=
  let sd := if strTruthy sd.activeSessionId then endSession sd now else sd
  let sessionName := match nameOpt with
    | some n => if n ≠ "" then n else "Session " ++ toString (sd.sessions.length + 1)
    | none => "Session " ++ toString (sd.sessions.length + 1)
  let branchName := if sd.settings.createSessionBranch && env.isRepo
                    then some ("vibe-session-" ++ sessId.take 8) else none
  let session : CodingSession :=
    { id := sessId, name := sessionName, startTime := now, endTime := none
      isActive := true, branchName := branchName, checkpointIds := []
      totalFilesChanged := 0, aiToolsUsed := [] }
  let sd := { sd with sessions := sd.sessions ++ [session],
                      activeSessionId := some sessId }
  let core := createCheckpointCore sd env.cpEnv cpId cpNow "" .sessionStart .user []
      { name := some ("🎮 Session Started: " ++ sessionName) }
  (core.1, session)

/-- Fresh identifiers and environment used when `createCheckpoint` has to
bootstrap a session first. -/
structure SessionBootstrap where
  sessId : String
  cpId : String
  env : SessionStartEnv

/-- `createCheckpoint` in full: ensure an active session exists, then run
the checkpoint-creation body. -/
def createCheckpoint (sd : StorageData) (boot : SessionBootstrap) (env : GitEnv)
    (id : String) (now : Nat) (autoName : String) (type : CheckpointType)
    (source : CheckpointSource) (changedFiles : List ChangedFile)
    (opts : CreateOptions) : StorageData × Checkpoint :=
  let sd := if strTruthy sd.activeSessionId then sd
            else (startSession sd now boot.sessId none boot.cpId now boot.env).1
  createCheckpointCore sd env id now autoName type source changedFiles opts

/-- A commit node as consumed by the lane layout
(`GraphCommit` of `types.ts`; the `lane` and `children` output fields are
not part of the input). -/
structure GraphCommit where
  hash : String
  abbreviatedHash : String
  parents : List String
  authorName : String
  authorEmail : String
  date : String
  message : String
  refs : List String
  isGuardianCommit : Bool
deriving DecidableEq, Repr

/-- Lane-engine state: the `activeLanes` array (slot holds the hash being
waited for, or `none` when free) plus a ghost counter of how many lane
slots have ever been allocated (each `activeLanes.push(null)`). -/
structure LaneState where
  activeLanes : List (Option String)
  allocated : Nat
deriving DecidableEq, Repr

/-- `findFreeLane`: first free slot, growing the array when none is free
(the growth is the one place a lane slot is allocated). -/
def findFreeLane (st : LaneState) : Nat × LaneState :=
  match st.activeLanes.findIdx? (fun l => l.isNone) with
  | some idx => (idx, st)
  | none => (st.activeLanes.length,
             { activeLanes := st.activeLanes ++ [none], allocated := st.allocated + 1 })

/-- `findLaneForHash` (JS `indexOf`, `none` for -1). -/
def findLaneForHash (st : LaneState) (hash : String) : Option Nat :=
  st.activeLanes.findIdx? (fun l => l == some hash)

/-- The per-commit body of `computeLaneLayout`: assign a lane and update
the reservations for the commit's parents. -/
def laneStep (st : LaneState) (commit : GraphCommit) : Nat × LaneState :=
  let assigned :=
    match findLaneForHash st commit.hash with
    | some idx => (idx, st)
    | none => findFreeLane st
  let lane := assigned.1
  let st := assigned.2
  match commit.parents with
  | [] => (lane, { st with activeLanes := st.activeLanes.set lane none })
  | firstParent :: restParents =>
    let st :=
      match findLaneForHash st firstParent with
      | some _ => { st with activeLanes := st.activeLanes.set lane none }
      | none => { st with activeLanes := st.activeLanes.set lane (some firstParent) }
    let st := restParents.foldl (fun st parentHash =>
      match findLaneForHash st parentHash with
      | some _ => st
      | none =>
        let free := findFreeLane st
        { free.2 with activeLanes := free.2.activeLanes.set free.1 (some parentHash) }) st
    (lane, st)

/-- The forward pass of `computeLaneLayout`, collecting the lane assigned
to each commit. -/
def laneLayoutAux (st : LaneState) : List GraphCommit → List Nat × LaneState
  | [] => ([], st)
  | c :: cs =>
    let step := laneStep st c
    let rest := laneLayoutAux step.2 cs
    (step.1 :: rest.1, rest.2)

/-- `GitGraphProvider.computeLaneLayout`: per-commit lanes and the total
lane count (`0` on an empty input, `max(activeLanes.length, 1)` otherwise). -/
def computeLaneLayout (commits : List GraphCommit) : List Nat × Nat :=
  if commits.length = 0 then ([], 0)
  else
    let run := laneLayoutAux { activeLanes := [], allocated := 0 } commits
    (run.1, max run.2.activeLanes.length 1)

/-- Number of lane slots ever allocated during the layout pass. -/
def laneSlotsAllocated (commits : List GraphCommit) : Nat :=
  (laneLayoutAux { activeLanes := [], allocated := 0 } commits).2.allocated

/-- `RollbackResult` from `types.ts`. -/
structure RollbackResult where
  success : Bool
  message : String
  filesRestored : List String
  filesNotRestored : List String
  errors : List String
deriving DecidableEq, Repr

/-- The rollback method picked in the quick-pick dialog. -/
inductive RollbackMethod where
  | hard | soft | checkout
deriving DecidableEq, Repr

/-- The answer to the confirmation dialog(s). -/
inductive ConfirmAnswer where
  | cancel | viewDiffThenCancel | viewDiffThenRollback | rollback
deriving DecidableEq, Repr

/-- Result of `GitManager.restoreToCommit` (checkout-files strategy). -/
structure RestoreToCommitResult where
  success : Bool
  restoredFiles : List String
  errors : List String
deriving DecidableEq, Repr

/-- Environment of one `RollbackManager.rollback` invocation: dialog
answers, git availability, and outcomes of the git operations
(`Except.error` models a thrown exception). -/
structure RollbackEnv where
  confirm : ConfirmAnswer
  isRepo : Bool
  method : Option RollbackMethod
  resetResult : Except String Bool
  restoreResult : Except String RestoreToCommitResult
  fileAtCommit : String → String → Option String
  restoreOk : String → Bool

/-- Options of `RollbackManager.rollback`. -/
structure RollbackOptions where
  hard : Option Bool := none
  createBackup : Option Bool := none
  skipConfirmation : Option Bool := none

/-- The content-replay loop of `rollback`: stored snapshot first, then the
parent of the checkpoint commit; failures land in `filesNotRestored`. -/
def rollbackFallbackLoop (env : RollbackEnv) (gitCommitHash : Option String) :
    List ChangedFile → List String × List String
  | [] => ([], [])
  | file :: rest =>
    let this : List String × List String :=
      match file.previousContent with
      | some _ =>
        if env.restoreOk file.path then ([file.path], []) else ([], [file.path])
      | none =>
        match gitCommitHash with
        | some h =>
          if h ≠ "" then
            match env.fileAtCommit file.path (h ++ "^") with
            | some _ =>
              if env.restoreOk file.path then ([file.path], []) else ([], [file.path])
            | none => ([], [file.path])
          else ([], [file.path])
        | none => ([], [file.path])
    let restRes := rollbackFallbackLoop env gitCommitHash rest
    (this.1 ++ restRes.1, this.2 ++ restRes.2)

/-- The completion phase of `rollback` once the request is past lookup and
confirmation: git strategy execution, content-replay fallback, and the
final `success = filesRestored.length > 0 || errors.length === 0`. -/
def rollbackCompletion (env : RollbackEnv) (checkpoint : Checkpoint) :
    RollbackResult :=
  if strTruthy checkpoint.gitCommitHash && env.isRepo then
    match env.method with
    | none =>
      { success := false, message := "Rollback cancelled", filesRestored := []
        filesNotRestored := [], errors := [] }
    | some m =>
      let gitOutcome : Bool × List String × List String :=
        match m with
        | .hard | .soft =>
          match env.resetResult with
          | .error e => (false, [], ["Git rollback failed: " ++ e])
          | .ok b =>
            if b then
              (true, [if m = .hard then "All files (hard reset)"
                      else "All files (soft reset)"], [])
            else (false, [], ["Git operation returned false"])
        | .checkout =>
          match env.restoreResult with
          | .error e => (false, [], ["Git rollback failed: " ++ e])
          | .ok r =>
            if r.success then (true, r.restoredFiles, [])
            else (false, r.restoredFiles, r.errors ++ ["Git operation returned false"])
      if gitOutcome.1 then
        { success := true
          message := "Successfully rolled back to: " ++ checkpoint.name
          filesRestored := gitOutcome.2.1, filesNotRestored := [], errors := [] }
      else
        rollbackAfterGit env checkpoint gitOutcome.2.2
  else
    rollbackAfterGit env checkpoint []
where
  /-- The tail of the completion phase: fallback loop plus result assembly. -/
  rollbackAfterGit (env : RollbackEnv) (checkpoint : Checkpoint)
      (errors : List String) : RollbackResult :=
    let fallback :=
      if checkpoint.changedFiles.length > 0 ∧ errors.length > 0 then
        rollbackFallbackLoop env checkpoint.gitCommitHash checkpoint.changedFiles
      else ([], [])
    let filesRestored := fallback.1
    let success := filesRestored.length > 0 || errors.length == 0
    { success := success
      message := if success then "Rolled back to checkpoint: " ++ checkpoint.name
                 else "Rollback failed: " ++ String.intercalate ", " errors
      filesRestored := filesRestored, filesNotRestored := fallback.2
      errors := errors }

/-- `RollbackManager.rollback` (the confirmation-aware variant): checkpoint
lookup, confirmation dialogs, then the completion phase.  The
backup-checkpoint step mutates only the store and never contributes to
the returned result (its failures are logged and swallowed), so it does
not appear in the result computation. -/
def rollback (sd : StorageData) (env : RollbackEnv) (checkpointId : String)
    (opts : RollbackOptions) : RollbackResult :=
  match getCheckpoint sd checkpointId with
  | none =>
    { success := false, message := "Checkpoint not found", filesRestored := []
      filesNotRestored := [], errors := ["Checkpoint not found"] }
  | some checkpoint =>
    if !(opts.skipConfirmation.getD false) && env.confirm == .cancel then
      { success := false, message := "Rollback cancelled by user"
        filesRestored := [], filesNotRestored := [], errors := [] }
    else if !(opts.skipConfirmation.getD false) && env.confirm == .viewDiffThenCancel then
      { success := false, message := "Rollback cancelled after diff preview"
        filesRestored := [], filesNotRestored := [], errors := [] }
    else
      rollbackCompletion env checkpoint

/-! ## Claim C1: `validateCheckpoint` and `canRollback` -/

/-- Environment for the C1 counterexample: no commit resolves, every file
is accessible on disk. -/
def envC1 : GitQueryEnv :=
  { commitExists := fun _ => false, fsExists := fun _ => true
    fileAtCommit := fun _ _ => none }

/-- The changed-file entry of the C1 counterexample checkpoint: it carries
a stored `previousContent` snapshot. -/
def fileC1 : ChangedFile :=
  { path := "f.ts", changeType := .modified, linesAdded := 1
    linesRemoved := 0, previousContent := some "old" }

/-- C1 counterexample checkpoint: a stale commit hash together with a
stored content snapshot. -/
def cpC1 : Checkpoint :=
  { id := "a", name := "n", timestamp := 0, gitCommitHash := some "deadbeef"
    type := .manual, source := .user
    changedFiles := [fileC1]
    sessionId := "s" }

/-- C1 (counterexample): the claimed equivalence
`canRollback = true ↔ (versionRef resolves ∨ some previousContent is defined)`
fails on the code: for a checkpoint whose `gitCommitHash` does not resolve
but whose `changedFiles` carry `previousContent`, the right-hand side holds
while `validateCheckpoint` returns `canRollback = false`. -/
theorem validateCheckpoint_claim_counterexample :
    ¬ ((validateCheckpoint envC1 cpC1).canRollback = true ↔
       ((∃ h, cpC1.gitCommitHash = some h ∧ envC1.commitExists h = true) ∨
        ∃ f ∈ cpC1.changedFiles, f.previousContent.isSome = true)) := by
  intro hiff
  have h1 : (validateCheckpoint envC1 cpC1).canRollback = false := rfl
  have h2 := hiff.mpr (Or.inr ⟨fileC1, by simp [cpC1], rfl⟩)
  rw [h1] at h2
  exact Bool.false_ne_true h2

/-- C1 (amended): `canRollback = true` iff either the checkpoint carries a
truthy `gitCommitHash` that resolves to an existing commit, or it carries
no truthy hash and at least one `changedFiles` entry has stored
`previousContent`; moreover `canRollback` is entirely independent of file
accessibility (the filesystem and file-at-commit oracles), so a missing
file never by itself flips `canRollback`. -/
theorem validateCheckpoint_canRollback_characterization (env : GitQueryEnv)
    (cp : Checkpoint) :
    ((validateCheckpoint env cp).canRollback = true ↔
      ((∃ h, cp.gitCommitHash = some h ∧ h ≠ "" ∧ env.commitExists h = true) ∨
       (strTruthy cp.gitCommitHash = false ∧
        ∃ f ∈ cp.changedFiles, f.previousContent.isSome = true))) ∧
    (∀ fs fac, (validateCheckpoint ⟨env.commitExists, fs, fac⟩ cp).canRollback =
               (validateCheckpoint env cp).canRollback) := by
  constructor
  · unfold validateCheckpoint
    cases hgc : cp.gitCommitHash with
    | none =>
      by_cases hprev : ∃ f ∈ cp.changedFiles, f.previousContent.isSome = true
      · simp [strTruthy, hgc, List.any_eq_true, hprev]
      · simp [strTruthy, hgc, List.any_eq_true, hprev]
    | some h =>
      by_cases hh : h = ""
      · subst hh
        by_cases hprev : ∃ f ∈ cp.changedFiles, f.previousContent.isSome = true
        · simp [strTruthy, hgc, List.any_eq_true, hprev]
        · simp [strTruthy, hgc, List.any_eq_true, hprev]
      · by_cases hc : env.commitExists h
        · simp [strTruthy, hgc, hh, hc]
        · simp [strTruthy, hgc, hh, hc]
  · intro fs fac
    rfl

/-! ## Claims C7 and C8: the lane layout engine -/

/-- `findFreeLane` preserves the allocation-counting invariant. -/
theorem findFreeLane_inv (st : LaneState)
    (h : st.activeLanes.length = st.allocated) :
    (findFreeLane st).2.activeLanes.length = (findFreeLane st).2.allocated := by
  unfold findFreeLane
  cases st.activeLanes.findIdx? (fun l => l.isNone) <;> simp [h]

/-- The merge-parent loop of `laneStep` preserves the invariant. -/
theorem laneStep_fold_inv (ps : List String) (st : LaneState)
    (h : st.activeLanes.length = st.allocated) :
    (ps.foldl (fun st parentHash =>
      match findLaneForHash st parentHash with
      | some _ => st
      | none =>
        let free := findFreeLane st
        { free.2 with activeLanes := free.2.activeLanes.set free.1 (some parentHash) }) st).activeLanes.length =
    (ps.foldl (fun st parentHash =>
      match findLaneForHash st parentHash with
      | some _ => st
      | none =>
        let free := findFreeLane st
        { free.2 with activeLanes := free.2.activeLanes.set free.1 (some parentHash) }) st).allocated := by
  induction ps generalizing st with
  | nil => simpa using h
  | cons p ps ih =>
    simp only [List.foldl_cons]
    apply ih
    cases findLaneForHash st p with
    | some _ => simpa using h
    | none => simpa using findFreeLane_inv st h

/-- `laneStep` preserves the allocation-counting invariant. -/
theorem laneStep_inv (st : LaneState) (c : GraphCommit)
    (h : st.activeLanes.length = st.allocated) :
    (laneStep st c).2.activeLanes.length = (laneStep st c).2.allocated := by
  unfold laneStep
  have hassigned :
      (match findLaneForHash st c.hash with
        | some idx => (idx, st)
        | none => findFreeLane st).2.activeLanes.length =
      (match findLaneForHash st c.hash with
        | some idx => (idx, st)
        | none => findFreeLane st).2.allocated := by
    cases findLaneForHash st c.hash with
    | some idx => simpa using h
    | none => exact findFreeLane_inv st h
  cases hp : c.parents with
  | nil => simpa using hassigned
  | cons firstParent restParents =>
    simp only
    apply laneStep_fold_inv
    cases findLaneForHash _ firstParent <;> simpa using hassigned

/-- The layout pass preserves the allocation-counting invariant. -/
theorem laneLayoutAux_inv (cs : List GraphCommit) (st : LaneState)
    (h : st.activeLanes.length = st.allocated) :
    (laneLayoutAux st cs).2.activeLanes.length = (laneLayoutAux st cs).2.allocated := by
  induction cs generalizing st with
  | nil => simpa using h
  | cons c cs ih =>
    simp only [laneLayoutAux]
    exact ih _ (laneStep_inv st c h)

/-- C7 (counterexample): on the empty commit list `computeLaneLayout`
returns a total of `0`, not `max(1, number of lane slots ever allocated)`,
which is `1`. -/
theorem computeLaneLayout_empty_counterexample :
    (computeLaneLayout []).2 = 0 ∧ max 1 (laneSlotsAllocated []) = 1 :=
  ⟨rfl, rfl⟩

/-- C7 (amended): for every non-empty commit list the total lane count
equals `max(1, number of lane slots ever allocated)`; on the empty list
the code short-circuits and returns `0` instead. -/
theorem computeLaneLayout_totalLanes (commits : List GraphCommit)
    (h : commits ≠ []) :
    (computeLaneLayout commits).2 = max 1 (laneSlotsAllocated commits) := by
  unfold computeLaneLayout laneSlotsAllocated
  have hlen : ¬ commits.length = 0 := by
    simpa using (List.length_pos.mpr h).ne.symm
  simp only [hlen, if_false]
  rw [laneLayoutAux_inv commits { activeLanes := [], allocated := 0 } rfl]
  exact Nat.max_comm _ _

/-- A concrete commit used by the lane layout witnesses. -/
def exCommitRoot : GraphCommit :=
  { hash := "r", abbreviatedHash := "r", parents := [], authorName := "alice"
    authorEmail := "a@x", date := "d", message := "m", refs := []
    isGuardianCommit := false }

/-- Witness for C7 (amended) at the singleton list. -/
theorem computeLaneLayout_totalLanes_witness :
    [exCommitRoot] ≠ ([] : List GraphCommit) ∧
    (computeLaneLayout [exCommitRoot]).2 = max 1 (laneSlotsAllocated [exCommitRoot]) :=
  ⟨by simp, computeLaneLayout_totalLanes [exCommitRoot] (by simp)⟩

/-- The per-commit step reads only the commit hash and parent list. -/
theorem laneStep_congr (st : LaneState) (c1 c2 : GraphCommit)
    (hh : c1.hash = c2.hash) (hp : c1.parents = c2.parents) :
    laneStep st c1 = laneStep st c2 := by
  unfold laneStep
  rw [hh, hp]

/-- The layout pass is determined by the hash/parents projection. -/
theorem laneLayoutAux_congr : ∀ (cs1 cs2 : List GraphCommit) (st : LaneState),
    cs1.map (fun c => (c.hash, c.parents)) = cs2.map (fun c => (c.hash, c.parents)) →
    laneLayoutAux st cs1 = laneLayoutAux st cs2
  | [], [], _, _ => rfl
  | [], _ :: _, _, h => by simp at h
  | _ :: _, [], _, h => by simp at h
  | c1 :: cs1, c2 :: cs2, st, h => by
    simp only [List.map_cons, List.cons.injEq, Prod.mk.injEq] at h
    simp only [laneLayoutAux]
    rw [laneStep_congr st c1 c2 h.1.1 h.1.2,
        laneLayoutAux_congr cs1 cs2 _ h.2]

/-- C8: the lane layout is deterministic — it depends only on the ordered
hash/parents data of the input.  Two inputs that agree commit-by-commit on
hash and parent list (in particular two identical inputs on repeated
invocations) receive identical lane assignments and total lane count. -/
theorem computeLaneLayout_deterministic (cs1 cs2 : List GraphCommit)
    (h : cs1.map (fun c => (c.hash, c.parents)) = cs2.map (fun c => (c.hash, c.parents))) :
    computeLaneLayout cs1 = computeLaneLayout cs2 := by
  have hlen : cs1.length = cs2.length := by
    have := congrArg List.length h
    simpa using this
  unfold computeLaneLayout
  rw [laneLayoutAux_congr cs1 cs2 _ h, hlen]

/-- A sibling of `exCommitRoot` differing only in presentation fields. -/
def exCommitRootAlt : GraphCommit :=
  { hash := "r", abbreviatedHash := "rr", parents := [], authorName := "bob"
    authorEmail := "b@y", date := "e", message := "n", refs := ["tag"]
    isGuardianCommit := true }

/-- Witness for C8 at concrete inputs differing in non-layout fields. -/
theorem computeLaneLayout_deterministic_witness :
    ([exCommitRoot].map (fun c => (c.hash, c.parents)) =
      [exCommitRootAlt].map (fun c => (c.hash, c.parents))) ∧
    computeLaneLayout [exCommitRoot] = computeLaneLayout [exCommitRootAlt] :=
  ⟨rfl, computeLaneLayout_deterministic [exCommitRoot] [exCommitRootAlt] rfl⟩

/-! ## Shared facts about `deleteCheckpoint` and iterated deletion -/

/-- The ids of a checkpoint list, in order. -/
def idsOf (l : List Checkpoint) : List String := l.map (·.id)

/-- The deletion-invariant projection of a checkpoint: everything
`deleteCheckpoint` can never change on a surviving node (it only rewrites
`parentId`). -/
def cpKey (cp : Checkpoint) : String × Nat × Bool × String :=
  (cp.id, cp.timestamp, cp.starred, cp.sessionId)

/-- Iterated deletion, the shape used by both `enforceCheckpointLimit`
and `cleanupInvalidCheckpoints`. -/
def foldDeletes (sd : StorageData) (ids : List String) : StorageData :=
  ids.foldl (fun s id => (deleteCheckpoint s id).1) sd

theorem reparent_id (x : String) (pid : Option String) (cp : Checkpoint) :
    (reparent x pid cp).id = cp.id := by
  unfold reparent
  split <;> rfl

theorem reparent_key (x : String) (pid : Option String) (cp : Checkpoint) :
    cpKey (reparent x pid cp) = cpKey cp := by
  unfold reparent cpKey
  split <;> rfl

theorem idsOf_map_reparent (x : String) (pid : Option String) (l : List Checkpoint) :
    idsOf (l.map (reparent x pid)) = idsOf l := by
  unfold idsOf
  rw [List.map_map]
  exact List.map_congr_left (fun cp _ => reparent_id x pid cp)

theorem idsOf_eq_keys_fst (l : List Checkpoint) :
    idsOf l = (l.map cpKey).map (fun k => k.1) := by
  unfold idsOf
  rw [List.map_map]
  rfl

/-- With pairwise-distinct ids, erasing the first id-match is the same as
filtering the id out. -/
theorem eraseP_eq_filter_of_nodup (x : String) :
    ∀ l : List Checkpoint, (idsOf l).Nodup →
      l.eraseP (fun cp => cp.id == x) = l.filter (fun cp => cp.id != x)
  | [], _ => rfl
  | a :: l, h => by
    have h' : a.id ∉ idsOf l ∧ (idsOf l).Nodup := by
      simpa [idsOf] using h
    by_cases ha : a.id = x
    · rw [List.eraseP_cons_of_pos (by simp [ha]), List.filter_cons_of_neg (by simp [ha])]
      symm
      apply List.filter_eq_self.mpr
      intro b hb
      have hbx : b.id ≠ x := by
        intro hbid
        exact h'.1 (by
          rw [ha]
          rw [← hbid]
          exact List.mem_map.mpr ⟨b, hb, rfl⟩)
      simpa using hbx
    · rw [List.eraseP_cons_of_neg (by simp [ha]), List.filter_cons_of_pos (by simp [ha])]
      rw [eraseP_eq_filter_of_nodup x l h'.2]

/-- Effect of a single `deleteCheckpoint` on the invariant projection of
the stored checkpoints. -/
theorem deleteCheckpoint_keys (sd : StorageData) (x : String)
    (h : (idsOf sd.checkpoints).Nodup) :
    (deleteCheckpoint sd x).1.checkpoints.map cpKey =
      (sd.checkpoints.map cpKey).filter (fun k => k.1 != x) := by
  unfold deleteCheckpoint
  cases hfind : sd.checkpoints.find? (fun cp => cp.id == x) with
  | none =>
    simp only
    symm
    rw [List.filter_map]
    have hself : sd.checkpoints.filter ((fun k => k.1 != x) ∘ cpKey) = sd.checkpoints := by
      apply List.filter_eq_self.mpr
      intro a ha
      have := List.find?_eq_none.mp hfind a ha
      simpa [cpKey, Function.comp] using this
    rw [hself]
  | some c =>
    simp only
    rw [eraseP_eq_filter_of_nodup x _ (by rw [idsOf_map_reparent]; exact h)]
    rw [List.filter_map, List.map_map]
    have hpred : sd.checkpoints.filter ((fun cp => cp.id != x) ∘ reparent x c.parentId) =
        sd.checkpoints.filter (fun cp => cp.id != x) := by
      apply List.filter_congr
      intro cp _
      simp [Function.comp, reparent_id]
    rw [hpred]
    rw [List.filter_map]
    have hmap : (sd.checkpoints.filter (fun cp => cp.id != x)).map (cpKey ∘ reparent x c.parentId) =
        (sd.checkpoints.filter (fun cp => cp.id != x)).map cpKey := by
      exact List.map_congr_left (fun cp _ => by simp [Function.comp, reparent_key])
    rw [hmap]
    have hpred2 : sd.checkpoints.filter ((fun k => k.1 != x) ∘ cpKey) =
        sd.checkpoints.filter (fun cp => cp.id != x) := by
      apply List.filter_congr
      intro cp _
      rfl
    rw [hpred2]

/-- Effect of a single `deleteCheckpoint` on the stored ids. -/
theorem deleteCheckpoint_ids (sd : StorageData) (x : String)
    (h : (idsOf sd.checkpoints).Nodup) :
    idsOf (deleteCheckpoint sd x).1.checkpoints =
      (idsOf sd.checkpoints).filter (fun i => i != x) := by
  rw [idsOf_eq_keys_fst, deleteCheckpoint_keys sd x h, idsOf_eq_keys_fst]
  rw [show ((sd.checkpoints.map cpKey).map (fun k => k.1)).filter (fun i => i != x) =
      ((sd.checkpoints.map cpKey).filter (fun k => k.1 != x)).map (fun k => k.1) from
      List.filter_map _ _]

theorem deleteCheckpoint_nodup (sd : StorageData) (x : String)
    (h : (idsOf sd.checkpoints).Nodup) :
    (idsOf (deleteCheckpoint sd x).1.checkpoints).Nodup := by
  rw [deleteCheckpoint_ids sd x h]
  exact h.filter _

/-- Effect of iterated deletion on the invariant projection. -/
theorem foldDeletes_keys : ∀ (ids : List String) (sd : StorageData),
    (idsOf sd.checkpoints).Nodup →
    (foldDeletes sd ids).checkpoints.map cpKey =
      (sd.checkpoints.map cpKey).filter (fun k => !(ids.contains k.1))
  | [], sd, _ => by
    simp [foldDeletes, List.filter_eq_self]
  | x :: ids, sd, h => by
    have ih := foldDeletes_keys ids (deleteCheckpoint sd x).1
      (deleteCheckpoint_nodup sd x h)
    have hstep : foldDeletes sd (x :: ids) = foldDeletes (deleteCheckpoint sd x).1 ids := by
      simp [foldDeletes]
    rw [hstep, ih, deleteCheckpoint_keys sd x h, List.filter_filter]
    apply List.filter_congr
    intro k _
    by_cases h1 : k.1 = x <;> by_cases h2 : k.1 ∈ ids <;>
      simp [List.contains_cons, h1, h2, bne_iff_ne]

/-- Ids of the result of iterated deletion. -/
theorem foldDeletes_ids (ids : List String) (sd : StorageData)
    (h : (idsOf sd.checkpoints).Nodup) :
    idsOf (foldDeletes sd ids).checkpoints =
      (idsOf sd.checkpoints).filter (fun i => !(ids.contains i)) := by
  rw [idsOf_eq_keys_fst, foldDeletes_keys ids sd h, idsOf_eq_keys_fst]
  rw [show ((sd.checkpoints.map cpKey).map (fun k => k.1)).filter (fun i => !(ids.contains i)) =
      ((sd.checkpoints.map cpKey).filter (fun k => !(ids.contains k.1))).map (fun k => k.1) from
      List.filter_map _ _]

theorem foldDeletes_nodup (ids : List String) (sd : StorageData)
    (h : (idsOf sd.checkpoints).Nodup) :
    (idsOf (foldDeletes sd ids).checkpoints).Nodup := by
  rw [foldDeletes_ids ids sd h]
  exact h.filter _

/-! ## Claim C4: rollback success semantics -/

/-- Auxiliary Bool fact used to relate the success formula to the result
record fields. -/
theorem success_formula_eq (L E : List String) :
    ((L.length > 0 : Bool) || (E.length == 0)) = (!L.isEmpty || E.isEmpty) := by
  cases L <;> cases E <;> simp

/-- The post-git phase of `rollback` satisfies
`success = (some file restored ∨ no errors)`. -/
theorem rollbackAfterGit_success (env : RollbackEnv) (cp : Checkpoint)
    (errors : List String) :
    (rollbackCompletion.rollbackAfterGit env cp errors).success =
      (!(rollbackCompletion.rollbackAfterGit env cp errors).filesRestored.isEmpty ||
       (rollbackCompletion.rollbackAfterGit env cp errors).errors.isEmpty) := by
  unfold rollbackCompletion.rollbackAfterGit
  simp only
  exact success_formula_eq _ _

/-- The completion phase of `rollback`: whenever the git-strategy dialog is
not abandoned, `success = (some file restored ∨ no errors)`. -/
theorem rollbackCompletion_success (env : RollbackEnv) (cp : Checkpoint)
    (hmethod : (strTruthy cp.gitCommitHash && env.isRepo) = true →
               env.method.isSome = true) :
    (rollbackCompletion env cp).success =
      (!(rollbackCompletion env cp).filesRestored.isEmpty ||
       (rollbackCompletion env cp).errors.isEmpty) := by
  unfold rollbackCompletion
  by_cases hg : (strTruthy cp.gitCommitHash && env.isRepo) = true
  · rw [if_pos hg]
    cases hm : env.method with
    | none =>
      rw [hm] at hmethod
      exact absurd (hmethod hg) (by simp)
    | some m =>
      cases m with
      | hard =>
        cases env.resetResult with
        | error e => exact rollbackAfterGit_success env cp _
        | ok b => cases b <;> simp [rollbackAfterGit_success env cp]
      | soft =>
        cases env.resetResult with
        | error e => exact rollbackAfterGit_success env cp _
        | ok b => cases b <;> simp [rollbackAfterGit_success env cp]
      | checkout =>
        cases env.restoreResult with
        | error e => exact rollbackAfterGit_success env cp _
        | ok r =>
          cases hr : r.success <;> simp [hr, rollbackAfterGit_success env cp]
  · rw [if_neg hg]
    exact rollbackAfterGit_success env cp _

/-- C4 (amended): for every rollback request whose checkpoint is found and
that the user does not cancel (confirmation passed; a git strategy chosen
whenever the git path is taken), the result satisfies
`success = (at least one file restored ∨ the errors list is empty)`.
In particular success can hold with zero files restored (when no error
occurred), and with a non-empty error list (when at least one file was
restored) — both contradicting the claimed rule. -/
theorem rollback_success_characterization (sd : StorageData) (env : RollbackEnv)
    (checkpointId : String) (opts : RollbackOptions) (cp : Checkpoint)
    (hfound : getCheckpoint sd checkpointId = some cp)
    (hconfirm : opts.skipConfirmation.getD false = true ∨
                (env.confirm ≠ .cancel ∧ env.confirm ≠ .viewDiffThenCancel))
    (hmethod : (strTruthy cp.gitCommitHash && env.isRepo) = true →
               env.method.isSome = true) :
    (rollback sd env checkpointId opts).success =
      (!(rollback sd env checkpointId opts).filesRestored.isEmpty ||
       (rollback sd env checkpointId opts).errors.isEmpty) := by
  unfold rollback
  rw [hfound]
  simp only
  rcases hconfirm with hskip | ⟨hc1, hc2⟩
  · rw [hskip]
    simp only [Bool.not_true, Bool.false_and, Bool.false_eq_true, if_false]
    exact rollbackCompletion_success env cp hmethod
  · have e1 : (env.confirm == ConfirmAnswer.cancel) = false := by
      simp [hc1]
    have e2 : (env.confirm == ConfirmAnswer.viewDiffThenCancel) = false := by
      simp [hc2]
    rw [e1, e2]
    simp only [Bool.and_false, Bool.false_eq_true, if_false]
    exact rollbackCompletion_success env cp hmethod

/-- The settings fields of `DEFAULT_SETTINGS` consulted by the embedding. -/
def defaultSettings : Settings :=
  { maxCheckpoints := 100, enableGit := true, createSessionBranch := false }

/-- C4 counterexample checkpoint: no `gitCommitHash` and no changed files. -/
def cpC4 : Checkpoint :=
  { id := "cp1", name := "n", timestamp := 0, gitCommitHash := none
    type := .manual, source := .user, changedFiles := [], sessionId := "s" }

/-- C4 counterexample store. -/
def sdC4 : StorageData :=
  { checkpoints := [cpC4], sessions := [], activeSessionId := none
    settings := defaultSettings }

/-- C4 counterexample environment (its git operations are never reached). -/
def envC4 : RollbackEnv :=
  { confirm := .rollback, isRepo := false, method := none
    resetResult := .ok false, restoreResult := .ok ⟨false, [], []⟩
    fileAtCommit := fun _ _ => none, restoreOk := fun _ => true }

/-- C4 (counterexample): a rollback of an existing checkpoint that restores
zero files still returns `success = true` (no git path, no errors), so
`Failed` does not cover every zero-files-restored outcome as claimed. -/
theorem rollback_claim_counterexample :
    (rollback sdC4 envC4 "cp1" { skipConfirmation := some true }).filesRestored = [] ∧
    (rollback sdC4 envC4 "cp1" { skipConfirmation := some true }).success = true :=
  ⟨rfl, rfl⟩

/-- Witness for C4 (amended) at the concrete counterexample input. -/
theorem rollback_success_characterization_witness :
    getCheckpoint sdC4 "cp1" = some cpC4 ∧
    (rollback sdC4 envC4 "cp1" { skipConfirmation := some true }).success =
      (!(rollback sdC4 envC4 "cp1" { skipConfirmation := some true }).filesRestored.isEmpty ||
       (rollback sdC4 envC4 "cp1" { skipConfirmation := some true }).errors.isEmpty) :=
  ⟨rfl, rollback_success_characterization sdC4 envC4 "cp1" _ cpC4 rfl (Or.inl rfl)
    (by intro h; exact absurd h (by decide))⟩

/-! ## Claim C10: `cleanupInvalidCheckpoints` deletes exactly the invalid -/

/-- The cleanup fold is iterated deletion of the snapshot entries that
fail validation. -/
theorem cleanup_foldl_eq (env : GitQueryEnv) :
    ∀ (snapshot : List Checkpoint) (sd : StorageData),
    snapshot.foldl (fun s cp => if (validateCheckpoint env cp).valid then s
                                else (deleteCheckpoint s cp.id).1) sd =
    foldDeletes sd ((snapshot.filter (fun cp => !(validateCheckpoint env cp).valid)).map (·.id))
  | [], _ => rfl
  | cp :: snapshot, sd => by
    rw [List.foldl_cons]
    by_cases hv : (validateCheckpoint env cp).valid = true
    · rw [if_pos hv]
      have hfc : (cp :: snapshot).filter (fun c => !(validateCheckpoint env c).valid) =
          snapshot.filter (fun c => !(validateCheckpoint env c).valid) := by
        rw [List.filter_cons]
        simp [hv]
      rw [hfc]
      exact cleanup_foldl_eq env snapshot sd
    · rw [if_neg hv]
      have hfc : (cp :: snapshot).filter (fun c => !(validateCheckpoint env c).valid) =
          cp :: snapshot.filter (fun c => !(validateCheckpoint env c).valid) := by
        rw [List.filter_cons]
        simp [hv]
      rw [hfc, List.map_cons]
      have hstep : foldDeletes sd (cp.id :: (snapshot.filter
          (fun c => !(validateCheckpoint env c).valid)).map (fun x => x.id)) =
          foldDeletes (deleteCheckpoint sd cp.id).1 ((snapshot.filter
          (fun c => !(validateCheckpoint env c).valid)).map (fun x => x.id)) := by
        simp [foldDeletes]
      rw [hstep]
      exact cleanup_foldl_eq env snapshot _

/-- Environment for the C10 instance: the commit resolves but the listed
file exists neither on disk nor in the commit. -/
def envC10 : GitQueryEnv :=
  { commitExists := fun _ => true, fsExists := fun _ => false
    fileAtCommit := fun _ _ => none }

/-- C10 instance checkpoint: resolvable commit, one vanished file. -/
def cpC10 : Checkpoint :=
  { id := "x", name := "n", timestamp := 0, gitCommitHash := some "abc1234"
    type := .manual, source := .user
    changedFiles := [{ path := "gone.ts", changeType := .modified,
                       linesAdded := 0, linesRemoved := 0 }]
    sessionId := "s" }

/-- C10 instance store. -/
def sdC10 : StorageData :=
  { checkpoints := [cpC10], sessions := [], activeSessionId := none
    settings := defaultSettings }

/-- C10: `cleanupInvalidCheckpoints` deletes exactly the checkpoints whose
validation issues list is non-empty (`valid = false`), not only those with
`canRollback = false`; concretely, a checkpoint with `canRollback = true`
is deleted solely because one of its listed files no longer exists
anywhere. -/
theorem cleanupInvalidCheckpoints_spec :
    (∀ (env : GitQueryEnv) (sd : StorageData), (idsOf sd.checkpoints).Nodup →
      ∀ cp ∈ sd.checkpoints,
        ((∃ cp' ∈ (cleanupInvalidCheckpoints env sd).1.checkpoints, cp'.id = cp.id) ↔
         (validateCheckpoint env cp).valid = true)) ∧
    ((validateCheckpoint envC10 cpC10).canRollback = true ∧
     (validateCheckpoint envC10 cpC10).valid = false ∧
     (cleanupInvalidCheckpoints envC10 sdC10).1.checkpoints = []) := by
  constructor
  · intro env sd hN cp hcp
    have hres : idsOf (cleanupInvalidCheckpoints env sd).1.checkpoints =
        (idsOf sd.checkpoints).filter (fun i =>
          !(((sd.checkpoints.filter (fun c => !(validateCheckpoint env c).valid)).map (·.id)).contains i)) := by
      show idsOf (sd.checkpoints.foldl _ sd).checkpoints = _
      rw [cleanup_foldl_eq env sd.checkpoints sd, foldDeletes_ids _ sd hN]
    have hmem : (∃ cp' ∈ (cleanupInvalidCheckpoints env sd).1.checkpoints, cp'.id = cp.id) ↔
        cp.id ∈ idsOf (cleanupInvalidCheckpoints env sd).1.checkpoints := by
      unfold idsOf
      exact (List.mem_map).symm
    rw [hmem, hres, List.mem_filter]
    have hin : cp.id ∈ idsOf sd.checkpoints := List.mem_map.mpr ⟨cp, hcp, rfl⟩
    have hdel : cp.id ∈ (sd.checkpoints.filter (fun c => !(validateCheckpoint env c).valid)).map (·.id) ↔
        (validateCheckpoint env cp).valid = false := by
      constructor
      · intro hd
        rcases List.mem_map.mp hd with ⟨d, hdf, hdi⟩
        rcases List.mem_filter.mp hdf with ⟨hdl, hdv⟩
        have : d = cp := List.inj_on_of_nodup_map hN hdl hcp hdi
        subst this
        simpa using hdv
      · intro hval
        exact List.mem_map.mpr ⟨cp, List.mem_filter.mpr ⟨hcp, by simp [hval]⟩, rfl⟩
    constructor
    · intro ⟨_, hcont⟩
      by_contra hnv
      have hval : (validateCheckpoint env cp).valid = false := by
        simpa using hnv
      have := hdel.mpr hval
      simp [List.elem_iff, this] at hcont
    · intro hval
      refine ⟨hin, ?_⟩
      have hnd : cp.id ∉ (sd.checkpoints.filter (fun c => !(validateCheckpoint env c).valid)).map (·.id) := by
        intro hmem2
        rw [hdel] at hmem2
        rw [hval] at hmem2
        exact absurd hmem2 (by simp)
      simp [List.elem_iff, hnd]
  · exact ⟨rfl, rfl, rfl⟩

/-- Witness for C10 at the concrete instance (the checkpoint is deleted by
cleanup although its `canRollback` is true). -/
theorem cleanupInvalidCheckpoints_spec_witness :
    (idsOf sdC10.checkpoints).Nodup ∧
    ((∃ cp' ∈ (cleanupInvalidCheckpoints envC10 sdC10).1.checkpoints, cp'.id = cpC10.id) ↔
     (validateCheckpoint envC10 cpC10).valid = true) :=
  ⟨by simp [idsOf, sdC10], cleanupInvalidCheckpoints_spec.1 envC10 sdC10
    (by simp [idsOf, sdC10]) cpC10 (by simp [sdC10])⟩

/-! ## Claim C9: `createCheckpoint` never fails on git errors -/

/-- If either git call in the `try` block throws, no commit hash is
recorded. -/
theorem gitSyncPhase_fail_hash (settings : Settings) (env : GitEnv)
    (changedFiles : List ChangedFile)
    (hfail : (∃ e, env.detailed = .error e) ∨ (∃ e, env.commit = .error e)) :
    (gitSyncPhase settings env changedFiles).1 = none := by
  unfold gitSyncPhase
  by_cases hg : (settings.enableGit && env.isRepo) = true
  · rw [if_pos hg]
    rcases hfail with ⟨e, he⟩ | ⟨e, he⟩
    · rw [he]
    · cases hd : env.detailed with
      | error e2 => rfl
      | ok gitFiles =>
        rw [he]
  · rw [if_neg hg]

/-- Retention enforcement is the identity at or under the limit. -/
theorem enforceCheckpointLimit_noop (sd : StorageData)
    (h : sd.checkpoints.length ≤ sd.settings.maxCheckpoints) :
    enforceCheckpointLimit sd = sd := by
  unfold enforceCheckpointLimit
  rw [if_pos h]

/-- C9: when any version-control operation inside `createCheckpoint`
(changed-file listing, staging or committing) throws, the error is not
propagated — the call still produces a checkpoint, that checkpoint carries
no `versionRef` (`gitCommitHash = none`), and it is present in the stored
checkpoint list afterwards.  The store is assumed to have an active
session and to be under its retention limit. -/
theorem createCheckpoint_git_failure (sd : StorageData) (boot : SessionBootstrap)
    (env : GitEnv) (id : String) (now : Nat) (autoName : String)
    (type : CheckpointType) (source : CheckpointSource)
    (changedFiles : List ChangedFile) (opts : CreateOptions)
    (hactive : strTruthy sd.activeSessionId = true)
    (hroom : sd.checkpoints.length < sd.settings.maxCheckpoints)
    (hfail : (∃ e, env.detailed = .error e) ∨ (∃ e, env.commit = .error e)) :
    (createCheckpoint sd boot env id now autoName type source changedFiles opts).2.gitCommitHash = none ∧
    (createCheckpoint sd boot env id now autoName type source changedFiles opts).2 ∈
      (createCheckpoint sd boot env id now autoName type source changedFiles opts).1.checkpoints := by
  have hcc : createCheckpoint sd boot env id now autoName type source changedFiles opts =
      createCheckpointCore sd env id now autoName type source changedFiles opts := by
    unfold createCheckpoint
    rw [hactive]
    simp
  rw [hcc]
  constructor
  · show (gitSyncPhase sd.settings env changedFiles).1 = none
    exact gitSyncPhase_fail_hash sd.settings env changedFiles hfail
  · show _ ∈ (enforceCheckpointLimit _).checkpoints
    rw [enforceCheckpointLimit_noop _ (by
      simp only [List.length_append, List.length_cons, List.length_nil]
      omega)]
    exact List.mem_append_right _ (List.mem_singleton.mpr rfl)

/-- A git environment whose commit step throws, for the C9 witness. -/
def envC9 : GitEnv :=
  { isRepo := true, detailed := .ok [], commit := .error "commit failed" }

/-- A store with one active session, for the C9 witness. -/
def sdC9 : StorageData :=
  { checkpoints := []
    sessions := [{ id := "s1", name := "S", startTime := 0, isActive := true
                   checkpointIds := [], totalFilesChanged := 0, aiToolsUsed := [] }]
    activeSessionId := some "s1", settings := defaultSettings }

/-- A session bootstrap record (unused on the witness path). -/
def bootC9 : SessionBootstrap :=
  { sessId := "s2", cpId := "c0"
    env := { isRepo := false
             cpEnv := { isRepo := false, detailed := .ok [], commit := .error "x" } } }

/-- Witness for C9 at a concrete failing-commit environment. -/
theorem createCheckpoint_git_failure_witness :
    strTruthy sdC9.activeSessionId = true ∧
    (createCheckpoint sdC9 bootC9 envC9 "c1" 5 "auto" .manual .user [] {}).2.gitCommitHash = none ∧
    (createCheckpoint sdC9 bootC9 envC9 "c1" 5 "auto" .manual .user [] {}).2 ∈
      (createCheckpoint sdC9 bootC9 envC9 "c1" 5 "auto" .manual .user [] {}).1.checkpoints :=
  ⟨rfl, createCheckpoint_git_failure sdC9 bootC9 envC9 "c1" 5 "auto" .manual .user [] {}
    rfl (by decide) (Or.inr ⟨"commit failed", rfl⟩)⟩

/-! ## Claim C3: `deleteCheckpoint` specification -/

/-- Filtering out one present id (under distinctness) drops exactly one
element. -/
theorem length_filter_ne_of_mem (x : String) :
    ∀ (l : List Checkpoint), (idsOf l).Nodup → x ∈ idsOf l →
      (l.filter (fun cp => cp.id != x)).length + 1 = l.length
  | [], _, hx => by simp [idsOf] at hx
  | a :: l, h, hx => by
    have h' : a.id ∉ idsOf l ∧ (idsOf l).Nodup := by
      simpa [idsOf] using h
    by_cases ha : a.id = x
    · rw [List.filter_cons_of_neg (by simp [ha])]
      have hall : l.filter (fun cp => cp.id != x) = l := by
        apply List.filter_eq_self.mpr
        intro b hb
        have : b.id ≠ x := by
          intro hbid
          exact h'.1 (by
            rw [ha, ← hbid]
            exact List.mem_map.mpr ⟨b, hb, rfl⟩)
        simpa using this
      rw [hall]
      simp
    · rw [List.filter_cons_of_pos (by simp [ha])]
      have hx' : x ∈ idsOf l := by
        rcases List.mem_map.mp hx with ⟨b, hb, hbid⟩
        rcases List.mem_cons.mp hb with hb | hb
        · exact absurd (hb ▸ hbid) ha
        · exact List.mem_map.mpr ⟨b, hb, hbid⟩
      simp only [List.length_cons]
      rw [← length_filter_ne_of_mem x l h'.2 hx']

/-- Positional behaviour of `updateFirst` on sessions with distinct ids:
the matching session is replaced by its update, every other one kept. -/
theorem updateFirst_session_mem (t : String) (f : CodingSession → CodingSession) :
    ∀ (l : List CodingSession), (l.map (·.id)).Nodup → ∀ s ∈ l,
      (if s.id = t then f s else s) ∈ updateFirst (fun a => a.id == t) f l
  | [], _, s, hs => by simp at hs
  | a :: l, h, s, hs => by
    have h' : a.id ∉ l.map (·.id) ∧ (l.map (·.id)).Nodup := by
      simpa using h
    unfold updateFirst
    by_cases hat : a.id = t
    · rw [if_pos (by simp [hat])]
      rcases List.mem_cons.mp hs with hs | hs
      · subst hs
        rw [if_pos hat]
        exact List.mem_cons_self _ _
      · have hst : s.id ≠ t := by
          intro he
          exact h'.1 (by
            rw [hat, ← he]
            exact List.mem_map.mpr ⟨s, hs, rfl⟩)
        rw [if_neg hst]
        exact List.mem_cons_of_mem _ hs
    · rw [if_neg (by simp [hat])]
      rcases List.mem_cons.mp hs with hs | hs
      · subst hs
        rw [if_neg hat]
        exact List.mem_cons_self _ _
      · exact List.mem_cons_of_mem _ (updateFirst_session_mem t f l h'.2 s hs)

/-- C3: deleting a stored checkpoint removes exactly it, re-parents every
checkpoint whose `parentId` was the deleted id to the deleted node's own
parent (all others kept as they are), filters the id out of its session's
`checkpointIds`, and returns `true`; deleting an unknown id returns
`false` and leaves the store unchanged. -/
theorem deleteCheckpoint_spec :
    (∀ (sd : StorageData) (X : String) (c : Checkpoint),
       (idsOf sd.checkpoints).Nodup → (sd.sessions.map (·.id)).Nodup →
       c ∈ sd.checkpoints → c.id = X →
       (deleteCheckpoint sd X).2 = true ∧
       (∀ cp' ∈ (deleteCheckpoint sd X).1.checkpoints, cp'.id ≠ X) ∧
       (deleteCheckpoint sd X).1.checkpoints.length + 1 = sd.checkpoints.length ∧
       (∀ cp ∈ sd.checkpoints, cp.id ≠ X →
         reparent X c.parentId cp ∈ (deleteCheckpoint sd X).1.checkpoints) ∧
       (∀ s ∈ sd.sessions, ∃ s' ∈ (deleteCheckpoint sd X).1.sessions,
         s'.id = s.id ∧
         s'.checkpointIds = (if s.id = c.sessionId
           then s.checkpointIds.filter (fun i => i != X) else s.checkpointIds))) ∧
    (∀ (sd : StorageData) (X : String),
       (∀ c ∈ sd.checkpoints, c.id ≠ X) → deleteCheckpoint sd X = (sd, false)) := by
  constructor
  · intro sd X c hN hNs hc hcX
    cases hfind : sd.checkpoints.find? (fun cp => cp.id == X) with
    | none =>
      exact absurd (List.find?_eq_none.mp hfind c hc) (by simp [hcX])
    | some c' =>
      have hc'id : c'.id = X := by
        have := List.find?_some hfind
        simpa using this
      have hc'mem : c' ∈ sd.checkpoints := List.mem_of_find?_eq_some hfind
      have hcc : c' = c := by
        apply List.inj_on_of_nodup_map hN hc'mem hc
        rw [hc'id, hcX]
      subst hcc
      have hfst : (deleteCheckpoint sd X).1.checkpoints =
          (sd.checkpoints.map (reparent X c'.parentId)).filter (fun cp => cp.id != X) := by
        unfold deleteCheckpoint
        rw [hfind]
        simp only
        exact eraseP_eq_filter_of_nodup X _ (by rw [idsOf_map_reparent]; exact hN)
      have hsnd : (deleteCheckpoint sd X).2 = true := by
        unfold deleteCheckpoint
        rw [hfind]
      have hsess : (deleteCheckpoint sd X).1.sessions =
          updateFirst (fun s => s.id == c'.sessionId)
            (fun s => { s with checkpointIds := s.checkpointIds.filter (fun i => i != X) })
            sd.sessions := by
        unfold deleteCheckpoint
        rw [hfind]
      refine ⟨hsnd, ?_, ?_, ?_, ?_⟩
      · intro cp' hcp'
        rw [hfst] at hcp'
        have := (List.mem_filter.mp hcp').2
        simpa using this
      · rw [hfst]
        have hx : X ∈ idsOf (sd.checkpoints.map (reparent X c'.parentId)) := by
          rw [idsOf_map_reparent]
          exact List.mem_map.mpr ⟨c', hc'mem, hc'id⟩
        have := length_filter_ne_of_mem X (sd.checkpoints.map (reparent X c'.parentId))
          (by rw [idsOf_map_reparent]; exact hN) hx
        rw [this, List.length_map]
      · intro cp hcp hcpX
        rw [hfst]
        apply List.mem_filter.mpr
        refine ⟨List.mem_map.mpr ⟨cp, hcp, rfl⟩, ?_⟩
        rw [reparent_id]
        simpa using hcpX
      · intro s hs
        rw [hsess]
        refine ⟨(if s.id = c'.sessionId
          then { s with checkpointIds := s.checkpointIds.filter (fun i => i != X) }
          else s), ?_, ?_, ?_⟩
        · have := updateFirst_session_mem c'.sessionId
            (fun s => { s with checkpointIds := s.checkpointIds.filter (fun i => i != X) })
            sd.sessions hNs s hs
          by_cases hst : s.id = c'.sessionId
          · rw [if_pos hst]
            rw [if_pos hst] at this
            exact this
          · rw [if_neg hst]
            rw [if_neg hst] at this
            exact this
        · by_cases hst : s.id = c'.sessionId
          · rw [if_pos hst]
          · rw [if_neg hst]
        · by_cases hst : s.id = c'.sessionId
          · rw [if_pos hst, if_pos hst]
          · rw [if_neg hst, if_neg hst]
  · intro sd X hnone
    unfold deleteCheckpoint
    have : sd.checkpoints.find? (fun cp => cp.id == X) = none := by
      apply List.find?_eq_none.mpr
      intro cp hcp
      simpa using hnone cp hcp
    rw [this]

/-- A three-node parent chain for the C3 witness. -/
def cpA3 : Checkpoint :=
  { id := "a", name := "a", timestamp := 0, type := .manual, source := .user
    changedFiles := [], sessionId := "s1" }

/-- Middle node of the C3 witness chain (parent `"a"`). -/
def cpB3 : Checkpoint :=
  { id := "b", name := "b", timestamp := 1, type := .manual, source := .user
    changedFiles := [], sessionId := "s1", parentId := some "a" }

/-- Last node of the C3 witness chain (parent `"b"`). -/
def cpC3 : Checkpoint :=
  { id := "c", name := "c", timestamp := 2, type := .manual, source := .user
    changedFiles := [], sessionId := "s1", parentId := some "b" }

/-- Store for the C3 witness. -/
def sdC3 : StorageData :=
  { checkpoints := [cpA3, cpB3, cpC3]
    sessions := [{ id := "s1", name := "S", startTime := 0, isActive := true
                   checkpointIds := ["a", "b", "c"], totalFilesChanged := 0
                   aiToolsUsed := [] }]
    activeSessionId := some "s1", settings := defaultSettings }

/-- Witness for C3: delete the middle node of a three-node chain. -/
theorem deleteCheckpoint_spec_witness :
    (idsOf sdC3.checkpoints).Nodup ∧ cpB3 ∈ sdC3.checkpoints ∧
    ((deleteCheckpoint sdC3 "b").2 = true ∧
     (∀ cp' ∈ (deleteCheckpoint sdC3 "b").1.checkpoints, cp'.id ≠ "b") ∧
     (deleteCheckpoint sdC3 "b").1.checkpoints.length + 1 = sdC3.checkpoints.length ∧
     (∀ cp ∈ sdC3.checkpoints, cp.id ≠ "b" →
       reparent "b" cpB3.parentId cp ∈ (deleteCheckpoint sdC3 "b").1.checkpoints) ∧
     (∀ s ∈ sdC3.sessions, ∃ s' ∈ (deleteCheckpoint sdC3 "b").1.sessions,
       s'.id = s.id ∧
       s'.checkpointIds = (if s.id = cpB3.sessionId
         then s.checkpointIds.filter (fun i => i != "b") else s.checkpointIds))) :=
  ⟨by simp [idsOf, sdC3, cpA3, cpB3, cpC3], by simp [sdC3],
   deleteCheckpoint_spec.1 sdC3 "b" cpB3
     (by simp [idsOf, sdC3, cpA3, cpB3, cpC3])
     (by simp [sdC3])
     (by simp [sdC3])
     rfl⟩

/-! ## Claim C6: end-to-end scenario A -/

/-- A git environment representing an uninitialised workspace (not a git
repository; the fallible calls are never reached). -/
def gitOffEnv : GitEnv :=
  { isRepo := false, detailed := .ok [], commit := .ok ⟨false, none, []⟩ }

/-- Session bootstrap environment with git unavailable. -/
def bootEnvC6 : SessionStartEnv := { isRepo := false, cpEnv := gitOffEnv }

/-- The empty store scenario A starts from. -/
def emptyStore : StorageData :=
  { checkpoints := [], sessions := [], activeSessionId := none
    settings := defaultSettings }

/-- Scenario A of the spec: `startSession("S1")` followed by one
`createCheckpoint(Manual, User, [f])`, with git unavailable.  `"cp0"` is
the id of the SessionStart checkpoint `startSession` emits, `"cp1"` the id
of the manual checkpoint. -/
def scenarioA (f : ChangedFile) (now0 now1 : Nat) (autoName : String) : StorageData :=
  (createCheckpointCore
    ((startSession emptyStore now0 "sess1" (some "S1") "cp0" now0 bootEnvC6).1)
    gitOffEnv "cp1" now1 autoName .manual .user [f] {}).1

/-- The single modified file of scenario A. -/
def fileA : ChangedFile :=
  { path := "fileA.ts", changeType := .modified, linesAdded := 3, linesRemoved := 1 }

/-- C6 (counterexample): after scenario A the active session's
`checkpointIds` has length 2 (the SessionStart checkpoint emitted by
`startSession` plus the manual one), not 1 as claimed;
`totalFilesChanged = 1` does hold. -/
theorem scenarioA_counterexample :
    (getActiveSession (scenarioA fileA 0 1 "auto")).map (fun s => s.checkpointIds.length) = some 2 ∧
    (getActiveSession (scenarioA fileA 0 1 "auto")).map (fun s => s.totalFilesChanged) = some 1 :=
  ⟨rfl, rfl⟩

/-- C6 (amended): for every changed file and any timestamps, scenario A
leaves the active session with `checkpointIds = [session-start id, manual
id]` — length 2, because `startSession` immediately emits a `SessionStart`
checkpoint — and `totalFilesChanged = 1`. -/
theorem scenarioA_amended (f : ChangedFile) (now0 now1 : Nat) (autoName : String) :
    ∃ s, getActiveSession (scenarioA f now0 now1 autoName) = some s ∧
      s.checkpointIds = ["cp0", "cp1"] ∧ s.totalFilesChanged = 1 ∧
      s.checkpointIds.length = 2 := by
  refine ⟨_, rfl, rfl, rfl, rfl⟩

/-! ## Claim C2: retention enforcement -/

/-- On an all-unstarred list the eviction loop selects exactly the first
`total - max - deleted` entries. -/
theorem pickToDelete_no_starred (total maxCp : Nat) :
    ∀ (L : List Checkpoint) (d : Nat), (∀ cp ∈ L, cp.starred = false) →
      pickToDelete total maxCp L d = (L.take (total - maxCp - d)).map (·.id)
  | [], d, _ => by simp [pickToDelete]
  | cp :: L, d, h => by
    unfold pickToDelete
    by_cases hle : total - d ≤ maxCp
    · rw [if_pos hle]
      have h0 : total - maxCp - d = 0 := by omega
      rw [h0]
      simp
    · rw [if_neg hle]
      have hst : cp.starred = false := h cp (List.mem_cons_self _ _)
      rw [hst]
      have hk : total - maxCp - d = (total - maxCp - (d + 1)) + 1 := by omega
      rw [hk]
      simp only [Bool.not_false, if_true, List.take_succ_cons, List.map_cons]
      rw [pickToDelete_no_starred total maxCp L (d + 1)
        (fun c hc => h c (List.mem_cons_of_mem _ hc))]

/-- Every id picked for eviction belongs to a non-starred entry. -/
theorem pickToDelete_mem (total maxCp : Nat) :
    ∀ (L : List Checkpoint) (d : Nat) (x : String),
      x ∈ pickToDelete total maxCp L d → ∃ c ∈ L, c.id = x ∧ c.starred = false
  | [], _, x, hx => by simp [pickToDelete] at hx
  | cp :: L, d, x, hx => by
    unfold pickToDelete at hx
    by_cases hle : total - d ≤ maxCp
    · rw [if_pos hle] at hx
      simp at hx
    · rw [if_neg hle] at hx
      cases hst : cp.starred with
      | false =>
        rw [hst] at hx
        simp only [Bool.not_false, if_true] at hx
        rcases List.mem_cons.mp hx with hx | hx
        · exact ⟨cp, List.mem_cons_self _ _, hx.symm, hst⟩
        · rcases pickToDelete_mem total maxCp L (d + 1) x hx with ⟨c, hc, hcx, hcs⟩
          exact ⟨c, List.mem_cons_of_mem _ hc, hcx, hcs⟩
      | true =>
        rw [hst] at hx
        simp only [Bool.not_true, Bool.false_eq_true, if_false] at hx
        rcases pickToDelete_mem total maxCp L d x hx with ⟨c, hc, hcx, hcs⟩
        exact ⟨c, List.mem_cons_of_mem _ hc, hcx, hcs⟩

/-- The invariant projection of the store after over-limit enforcement. -/
theorem enforceCheckpointLimit_keys (sd : StorageData)
    (hN : (idsOf sd.checkpoints).Nodup)
    (hover : ¬ sd.checkpoints.length ≤ sd.settings.maxCheckpoints) :
    (enforceCheckpointLimit sd).checkpoints.map cpKey =
      (sd.checkpoints.map cpKey).filter (fun k =>
        !((pickToDelete sd.checkpoints.length sd.settings.maxCheckpoints
            (sd.checkpoints.mergeSort (fun a b => a.timestamp ≤ b.timestamp)) 0).contains k.1)) := by
  unfold enforceCheckpointLimit
  rw [if_neg hover]
  exact foldDeletes_keys _ sd hN

/-- Transitivity of the eviction comparator. -/
theorem tsLe_trans (a b c : Checkpoint) :
    decide (a.timestamp ≤ b.timestamp) = true →
    decide (b.timestamp ≤ c.timestamp) = true →
    decide (a.timestamp ≤ c.timestamp) = true := by
  simp only [decide_eq_true_eq]
  omega

/-- Totality of the eviction comparator. -/
theorem tsLe_total (a b : Checkpoint) :
    (decide (a.timestamp ≤ b.timestamp) || decide (b.timestamp ≤ a.timestamp)) = true := by
  simp only [Bool.or_eq_true, decide_eq_true_eq]
  omega

/-- C2: (a) enforcement never evicts a starred checkpoint, however old;
(b) on a store of 150 checkpoints, none starred, with `maxCheckpoints =
100` (and distinct ids and timestamps), exactly 100 checkpoints remain
and a checkpoint survives iff fewer than 100 others have a larger
timestamp — i.e. the survivors are the 100 most recent. -/
theorem enforceCheckpointLimit_spec :
    (∀ (sd : StorageData) (cp : Checkpoint), (idsOf sd.checkpoints).Nodup →
       cp ∈ sd.checkpoints → cp.starred = true →
       cpKey cp ∈ (enforceCheckpointLimit sd).checkpoints.map cpKey) ∧
    (∀ sd : StorageData, (idsOf sd.checkpoints).Nodup →
       (∀ cp ∈ sd.checkpoints, cp.starred = false) →
       sd.checkpoints.Pairwise (fun a b => a.timestamp ≠ b.timestamp) →
       sd.checkpoints.length = 150 → sd.settings.maxCheckpoints = 100 →
       (enforceCheckpointLimit sd).checkpoints.length = 100 ∧
       (∀ cp ∈ sd.checkpoints,
         (cpKey cp ∈ (enforceCheckpointLimit sd).checkpoints.map cpKey ↔
          sd.checkpoints.countP (fun d => cp.timestamp < d.timestamp) < 100))) := by
  constructor
  · intro sd cp hN hcp hstar
    by_cases hover : sd.checkpoints.length ≤ sd.settings.maxCheckpoints
    · unfold enforceCheckpointLimit
      rw [if_pos hover]
      exact List.mem_map.mpr ⟨cp, hcp, rfl⟩
    · rw [enforceCheckpointLimit_keys sd hN hover]
      apply List.mem_filter.mpr
      refine ⟨List.mem_map.mpr ⟨cp, hcp, rfl⟩, ?_⟩
      have hnotin : cp.id ∉ pickToDelete sd.checkpoints.length sd.settings.maxCheckpoints
          (sd.checkpoints.mergeSort (fun a b => a.timestamp ≤ b.timestamp)) 0 := by
        intro hmem
        rcases pickToDelete_mem _ _ _ _ _ hmem with ⟨c, hc, hcid, hcs⟩
        have hcl : c ∈ sd.checkpoints := by
          have := List.mem_mergeSort.mp hc
          exact this
        have : c = cp := List.inj_on_of_nodup_map hN hcl hcp hcid
        rw [this] at hcs
        rw [hstar] at hcs
        simp at hcs
      simp [List.elem_iff, hnotin, cpKey]
  · intro sd hN hs ht hlen hmax
    have hover : ¬ sd.checkpoints.length ≤ sd.settings.maxCheckpoints := by
      rw [hlen, hmax]
      omega
    set S := sd.checkpoints.mergeSort (fun a b => a.timestamp ≤ b.timestamp) with hS
    have hperm : List.Perm S sd.checkpoints := List.mergeSort_perm _ _
    have hSlen : S.length = 150 := by rw [hperm.length_eq, hlen]
    have hpickall : ∀ c ∈ S, c.starred = false := by
      intro c hc
      exact hs c (List.mem_mergeSort.mp hc)
    have hpick : pickToDelete sd.checkpoints.length sd.settings.maxCheckpoints S 0 =
        (S.take 50).map (·.id) := by
      rw [pickToDelete_no_starred _ _ S 0 hpickall, hlen, hmax]
    have hsorted : S.Pairwise (fun a b => decide (a.timestamp ≤ b.timestamp) = true) :=
      List.sorted_mergeSort tsLe_trans tsLe_total sd.checkpoints
    have hne : S.Pairwise (fun a b => a.timestamp ≠ b.timestamp) :=
      (List.Perm.pairwise_iff (fun h => h.symm) hperm).mpr ht
    have hsplit := List.take_append_drop 50 S
    have hTD : ∀ a ∈ S.take 50, ∀ b ∈ S.drop 50, a.timestamp ≤ b.timestamp := by
      have := hsorted
      rw [← hsplit] at this
      intro a ha b hb
      have := (List.pairwise_append.mp this).2.2 a ha b hb
      simpa using this
    have hTDne : ∀ a ∈ S.take 50, ∀ b ∈ S.drop 50, a.timestamp ≠ b.timestamp := by
      have := hne
      rw [← hsplit] at this
      intro a ha b hb
      exact (List.pairwise_append.mp this).2.2 a ha b hb
    have hTDlt : ∀ a ∈ S.take 50, ∀ b ∈ S.drop 50, a.timestamp < b.timestamp := by
      intro a ha b hb
      exact Nat.lt_of_le_of_ne (hTD a ha b hb) (hTDne a ha b hb)
    have hlentake : (S.take 50).length = 50 := by
      simp [hSlen]
    have hlendrop : (S.drop 50).length = 100 := by
      simp [hSlen]
    -- membership in the evicted prefix, characterised by the count of
    -- strictly larger timestamps
    have hcount : ∀ cp ∈ sd.checkpoints,
        (cp ∈ S.take 50 ↔
         ¬ sd.checkpoints.countP (fun d => cp.timestamp < d.timestamp) < 100) := by
      intro cp hcp
      have hcpS : cp ∈ S := List.mem_mergeSort.mpr hcp
      have hsplitcount : sd.checkpoints.countP (fun d => cp.timestamp < d.timestamp) =
          (S.take 50).countP (fun d => cp.timestamp < d.timestamp) +
          (S.drop 50).countP (fun d => cp.timestamp < d.timestamp) := by
        rw [← List.countP_append, hsplit]
        exact (List.Perm.countP_eq _ hperm).symm
      constructor
      · intro htake
        have hdropfull : (S.drop 50).countP (fun d => cp.timestamp < d.timestamp) = 100 := by
          rw [← hlendrop]
          apply List.countP_eq_length.mpr
          intro d hd
          simpa using hTDlt cp htake d hd
        rw [hsplitcount, hdropfull]
        omega
      · intro hge
        rcases List.mem_append.mp (by rw [hsplit]; exact hcpS) with htake | hdrop
        · exact htake
        · exfalso
          have htake0 : (S.take 50).countP (fun d => cp.timestamp < d.timestamp) = 0 := by
            apply List.countP_eq_zero.mpr
            intro a ha
            have hle2 : a.timestamp ≤ cp.timestamp := hTD a ha cp hdrop
            simp only [decide_eq_true_eq]
            omega
          have hdroplt : (S.drop 50).countP (fun d => cp.timestamp < d.timestamp) < 100 := by
            rw [← hlendrop]
            apply Nat.lt_of_le_of_ne (List.countP_le_length _)
            intro heq
            have := List.countP_eq_length.mp heq cp hdrop
            simp at this
          rw [hsplitcount, htake0] at hge
          omega
    -- an id is picked for eviction iff its checkpoint is in the sorted
    -- 50-element prefix
    have hidmem : ∀ cp ∈ sd.checkpoints,
        (cp.id ∈ (S.take 50).map (·.id) ↔ cp ∈ S.take 50) := by
      intro cp hcp
      constructor
      · intro hmem
        rcases List.mem_map.mp hmem with ⟨c, hc, hcid⟩
        have hcl : c ∈ sd.checkpoints :=
          List.mem_mergeSort.mp (List.mem_of_mem_take hc)
        have : c = cp := List.inj_on_of_nodup_map hN hcl hcp hcid
        rw [← this]
        exact hc
      · intro hmem
        exact List.mem_map.mpr ⟨cp, hmem, rfl⟩
    -- the survivors, projected
    have hkeys := enforceCheckpointLimit_keys sd hN hover
    rw [← hS, hpick] at hkeys
    constructor
    · -- exactly 100 remain
      have hlenmap : (enforceCheckpointLimit sd).checkpoints.length =
          ((enforceCheckpointLimit sd).checkpoints.map cpKey).length := by
        rw [List.length_map]
      rw [hlenmap, hkeys]
      rw [show ((sd.checkpoints.map cpKey).filter (fun k =>
            !(((S.take 50).map (·.id)).contains k.1))) =
          ((sd.checkpoints.filter (fun cp =>
            !(((S.take 50).map (·.id)).contains cp.id))).map cpKey) from by
        rw [List.filter_map]
        rfl]
      rw [List.length_map, ← List.countP_eq_length_filter]
      have hsplitcount2 : sd.checkpoints.countP (fun cp =>
            !(((S.take 50).map (·.id)).contains cp.id)) =
          (S.take 50).countP (fun cp => !(((S.take 50).map (·.id)).contains cp.id)) +
          (S.drop 50).countP (fun cp => !(((S.take 50).map (·.id)).contains cp.id)) := by
        rw [← List.countP_append, hsplit]
        exact (List.Perm.countP_eq _ hperm).symm
      have htake0 : (S.take 50).countP (fun cp =>
          !(((S.take 50).map (·.id)).contains cp.id)) = 0 := by
        apply List.countP_eq_zero.mpr
        intro a ha
        have hmem2 : a.id ∈ (S.take 50).map (·.id) := List.mem_map.mpr ⟨a, ha, rfl⟩
        simp [List.elem_iff]
        rw [← List.map_take]
        exact hmem2
      have hdropfull : (S.drop 50).countP (fun cp =>
          !(((S.take 50).map (·.id)).contains cp.id)) = 100 := by
        rw [← hlendrop]
        apply List.countP_eq_length.mpr
        intro b hb
        have hbl : b ∈ sd.checkpoints :=
          List.mem_mergeSort.mp (List.mem_of_mem_drop hb)
        have hnotin2 : b.id ∉ (S.take 50).map (·.id) := by
          intro hmem
          have hbtake : b ∈ S.take 50 := (hidmem b hbl).mp hmem
          exact hTDne b hbtake b hb rfl
        simp [List.elem_iff]
        rw [← List.map_take]
        exact hnotin2
      rw [hsplitcount2, htake0, hdropfull]
    · -- survivor characterisation
      intro cp hcp
      rw [hkeys]
      constructor
      · intro hmem
        have hnot : cp.id ∉ (S.take 50).map (·.id) := by
          have hpred := (List.mem_filter.mp hmem).2
          intro hc
          simp [List.elem_iff] at hpred
          rw [← List.map_take] at hpred
          exact hpred hc
        have : cp ∉ S.take 50 := fun hc => hnot ((hidmem cp hcp).mpr hc)
        by_contra hge
        exact this ((hcount cp hcp).mpr hge)
      · intro hlt
        apply List.mem_filter.mpr
        refine ⟨List.mem_map.mpr ⟨cp, hcp, rfl⟩, ?_⟩
        have : cp ∉ S.take 50 := by
          intro hc
          exact absurd hlt ((hcount cp hcp).mp hc)
        have hnot : cp.id ∉ (S.take 50).map (·.id) :=
          fun hc => this ((hidmem cp hcp).mp hc)
        simp [List.elem_iff, cpKey]
        rw [← List.map_take]
        exact hnot

/-- Starred oldest checkpoint for the C2 witness. -/
def cpStar2 : Checkpoint :=
  { id := "s", name := "s", timestamp := 0, type := .manual, source := .user
    changedFiles := [], sessionId := "ss", starred := true }

/-- Unstarred newer checkpoint for the C2 witness. -/
def cpU21 : Checkpoint :=
  { id := "u1", name := "u1", timestamp := 1, type := .manual, source := .user
    changedFiles := [], sessionId := "ss" }

/-- Second unstarred newer checkpoint for the C2 witness. -/
def cpU22 : Checkpoint :=
  { id := "u2", name := "u2", timestamp := 2, type := .manual, source := .user
    changedFiles := [], sessionId := "ss" }

/-- Over-limit store with a starred oldest checkpoint. -/
def sdA2 : StorageData :=
  { checkpoints := [cpStar2, cpU21, cpU22], sessions := [], activeSessionId := none
    settings := { maxCheckpoints := 1, enableGit := false, createSessionBranch := false } }

/-- Generator of the 150 checkpoints of scenario B. -/
def mkCpB (i : Nat) : Checkpoint :=
  { id := toString i, name := "c", timestamp := i, type := .auto, source := .autoSave
    changedFiles := [], sessionId := "sb" }

/-- Scenario B store: 150 unstarred checkpoints, `maxCheckpoints = 100`. -/
def sdB2 : StorageData :=
  { checkpoints := (List.range 150).map mkCpB, sessions := [], activeSessionId := none
    settings := { maxCheckpoints := 100, enableGit := false, createSessionBranch := false } }

set_option maxRecDepth 10000

/-- Witness for C2: part (a) at an over-limit store whose oldest
checkpoint is starred, part (b) at the 150-checkpoint scenario store. -/
theorem enforceCheckpointLimit_spec_witness :
    (cpKey cpStar2 ∈ (enforceCheckpointLimit sdA2).checkpoints.map cpKey) ∧
    ((enforceCheckpointLimit sdB2).checkpoints.length = 100 ∧
     (∀ cp ∈ sdB2.checkpoints,
       (cpKey cp ∈ (enforceCheckpointLimit sdB2).checkpoints.map cpKey ↔
        sdB2.checkpoints.countP (fun d => cp.timestamp < d.timestamp) < 100))) :=
  ⟨enforceCheckpointLimit_spec.1 sdA2 cpStar2 (by decide) (by simp [sdA2]) rfl,
   enforceCheckpointLimit_spec.2 sdB2 (by decide)
     (by
       intro cp hcp
       rcases List.mem_map.mp hcp with ⟨i, _, rfl⟩
       rfl)
     (by
       apply List.pairwise_map.mpr
       exact (List.pairwise_lt_range 150).imp (fun h => Nat.ne_of_lt h))
     (by simp [sdB2])
     rfl⟩

/-! ## Claim C5: the parent-chain invariant over operation sequences -/

/-- The parent-chain invariant: every checkpoint's `parentId` (when set)
names a checkpoint stored strictly earlier (the list order is creation
order — checkpoints are appended at the end and deletion preserves
relative order) in the same session. -/
def PInv (l : List Checkpoint) : Prop :=
  ∀ l₁ cp l₂, l = l₁ ++ cp :: l₂ → ∀ p, cp.parentId = some p →
    ∃ d ∈ l₁, d.id = p ∧ d.sessionId = cp.sessionId

/-- Resolve a checkpoint's parent in the store. -/
def parentOf (l : List Checkpoint) (c : Checkpoint) : Option Checkpoint :=
  c.parentId.bind (fun p => l.find? (fun d => d.id == p))

/-- Follow `parentId` links for `n` steps (`none` once the chain ends). -/
def parentIter (l : List Checkpoint) : Nat → Checkpoint → Option Checkpoint
  | 0, c => some c
  | n + 1, c => (parentOf l c).bind (parentIter l n)

/-- The arguments of one `createCheckpoint` call. -/
structure CreateArgs where
  boot : SessionBootstrap
  env : GitEnv
  id : String
  now : Nat
  autoName : String
  type : CheckpointType
  source : CheckpointSource
  changedFiles : List ChangedFile
  opts : CreateOptions

/-- The store operations the claim quantifies over. -/
inductive Op where
  | create (a : CreateArgs)
  | delete (id : String)

/-- Apply one operation to the store. -/
def applyOp (sd : StorageData) : Op → StorageData
  | .create a => (createCheckpoint sd a.boot a.env a.id a.now a.autoName
      a.type a.source a.changedFiles a.opts).1
  | .delete id => (deleteCheckpoint sd id).1

/-- Run a sequence of operations. -/
def runOps (sd : StorageData) : List Op → StorageData
  | [] => sd
  | op :: ops => runOps (applyOp sd op) ops

/-- Freshness of the generated ids of one operation (the embedding of
`generateId()` never repeating an id in use). -/
def opFresh (sd : StorageData) : Op → Prop
  | .create a => a.id ∉ idsOf sd.checkpoints ∧ a.boot.cpId ∉ idsOf sd.checkpoints ∧
      a.id ≠ a.boot.cpId
  | .delete _ => True

/-- Freshness along a whole operation sequence. -/
def opsFresh (sd : StorageData) : List Op → Prop
  | [] => True
  | op :: ops => opFresh sd op ∧ opsFresh (applyOp sd op) ops

/-- The store a run starts from: empty, with the given settings. -/
def initialStore (s : Settings) : StorageData :=
  { checkpoints := [], sessions := [], activeSessionId := none, settings := s }

/-- Decompose a mapped list around one element. -/
theorem map_eq_append_cons {f : Checkpoint → Checkpoint} :
    ∀ {l m₁ m₂ : List Checkpoint} {y : Checkpoint}, l.map f = m₁ ++ y :: m₂ →
      ∃ l₁ x l₂, l = l₁ ++ x :: l₂ ∧ f x = y ∧ m₁ = l₁.map f ∧ m₂ = l₂.map f := by
  intro l m₁
  induction m₁ generalizing l with
  | nil =>
    intro m₂ y h
    cases l with
    | nil => simp at h
    | cons a l' =>
      simp only [List.map_cons, List.nil_append, List.cons.injEq] at h
      exact ⟨[], a, l', rfl, h.1, rfl, h.2.symm⟩
  | cons b m₁' ih =>
    intro m₂ y h
    cases l with
    | nil => simp at h
    | cons a l' =>
      simp only [List.map_cons, List.cons_append, List.cons.injEq] at h
      rcases ih h.2 with ⟨l₁, x, l₂, hl, hfx, hm₁, hm₂⟩
      exact ⟨a :: l₁, x, l₂, by rw [hl]; rfl, hfx, by rw [List.map_cons, ← hm₁, ← h.1], hm₂⟩

/-- Decompose a filtered list around one element. -/
theorem filter_eq_append_cons {p : Checkpoint → Bool} :
    ∀ {l m₁ m₂ : List Checkpoint} {y : Checkpoint}, l.filter p = m₁ ++ y :: m₂ →
      ∃ l₁ l₂, l = l₁ ++ y :: l₂ ∧ p y = true ∧ m₁ = l₁.filter p := by
  intro l
  induction l with
  | nil =>
    intro m₁ m₂ y h
    rw [List.filter_nil] at h
    cases m₁ <;> simp at h
  | cons a l' ih =>
    intro m₁ m₂ y h
    by_cases hpa : p a = true
    · rw [List.filter_cons_of_pos hpa] at h
      cases m₁ with
      | nil =>
        simp only [List.nil_append, List.cons.injEq] at h
        exact ⟨[], l', by simp [h.1], by rw [← h.1]; exact hpa, rfl⟩
      | cons b m₁' =>
        simp only [List.cons_append, List.cons.injEq] at h
        rcases ih h.2 with ⟨l₁, l₂, hl, hpy, hm₁⟩
        refine ⟨a :: l₁, l₂, by rw [hl]; rfl, hpy, ?_⟩
        rw [List.filter_cons_of_pos hpa, ← hm₁, h.1]
    · rw [List.filter_cons_of_neg hpa] at h
      rcases ih h with ⟨l₁, l₂, hl, hpy, hm₁⟩
      refine ⟨a :: l₁, l₂, by rw [hl]; rfl, hpy, ?_⟩
      rw [List.filter_cons_of_neg hpa, hm₁]

/-- Decompose a one-element append around one element. -/
theorem append_singleton_eq_append_cons :
    ∀ {l l₁ l₂ : List Checkpoint} {c cp : Checkpoint}, l ++ [c] = l₁ ++ cp :: l₂ →
      (l₂ = [] ∧ cp = c ∧ l₁ = l) ∨ (∃ l₂', l = l₁ ++ cp :: l₂' ∧ l₂ = l₂' ++ [c]) := by
  intro l
  induction l with
  | nil =>
    intro l₁ l₂ c cp h
    cases l₁ with
    | nil =>
      simp only [List.nil_append, List.cons.injEq] at h
      exact Or.inl ⟨h.2.symm, h.1.symm, rfl⟩
    | cons b l₁' =>
      simp only [List.nil_append, List.cons_append, List.cons.injEq] at h
      exact absurd h.2.symm (by simp)
  | cons a l' ih =>
    intro l₁ l₂ c cp h
    cases l₁ with
    | nil =>
      simp only [List.cons_append, List.nil_append, List.cons.injEq] at h
      exact Or.inr ⟨l', by simp [h.1], h.2.symm⟩
    | cons b l₁' =>
      simp only [List.cons_append, List.cons.injEq] at h
      rcases ih h.2 with ⟨h2, h3, h4⟩ | ⟨l₂', h2, h3⟩
      · exact Or.inl ⟨h2, h3, by rw [h.1, h4]⟩
      · exact Or.inr ⟨l₂', by rw [h.1, h2]; rfl, h3⟩

/-- `PInv` is preserved by appending a checkpoint whose parent (if any) is
an already-stored checkpoint of the same session. -/
theorem PInv_append (l : List Checkpoint) (c : Checkpoint)
    (hP : PInv l)
    (hc : ∀ p, c.parentId = some p → ∃ d ∈ l, d.id = p ∧ d.sessionId = c.sessionId) :
    PInv (l ++ [c]) := by
  intro l₁ cp l₂ heq p hp
  rcases append_singleton_eq_append_cons heq with ⟨_, hcp, hl₁⟩ | ⟨l₂', hl, _⟩
  · subst hcp
    subst hl₁
    exact hc p hp
  · exact hP l₁ cp l₂' hl p hp

theorem reparent_sessionId (x : String) (pid : Option String) (cp : Checkpoint) :
    (reparent x pid cp).sessionId = cp.sessionId := by
  unfold reparent
  split <;> rfl

/-- `PInv` is preserved by `deleteCheckpoint`: a re-parented child points
at its grandparent, which sits even earlier in the list. -/
theorem PInv_delete (sd : StorageData) (x : String)
    (hN : (idsOf sd.checkpoints).Nodup) (hP : PInv sd.checkpoints) :
    PInv (deleteCheckpoint sd x).1.checkpoints := by
  cases hfind : sd.checkpoints.find? (fun cp => cp.id == x) with
  | none =>
    have hid : (deleteCheckpoint sd x).1 = sd := by
      unfold deleteCheckpoint
      rw [hfind]
    rw [hid]
    exact hP
  | some c =>
    have hcid : c.id = x := by simpa using List.find?_some hfind
    have hcmem : c ∈ sd.checkpoints := List.mem_of_find?_eq_some hfind
    have hfst : (deleteCheckpoint sd x).1.checkpoints =
        (sd.checkpoints.map (reparent x c.parentId)).filter (fun cp => cp.id != x) := by
      unfold deleteCheckpoint
      rw [hfind]
      simp only
      exact eraseP_eq_filter_of_nodup x _ (by rw [idsOf_map_reparent]; exact hN)
    rw [hfst]
    intro m₁ cp' m₂ heq p hp
    rcases filter_eq_append_cons heq with ⟨f₁, f₂, hfeq, hpy, hm₁⟩
    rcases map_eq_append_cons hfeq with ⟨l₁, cp₀, l₂, hleq, hrep, hf₁, hf₂⟩
    subst hm₁
    subst hf₁
    have hsid : cp'.sessionId = cp₀.sessionId := by
      rw [← hrep, reparent_sessionId]
    by_cases hpar : cp₀.parentId = some x
    · have hcp'par : cp'.parentId = c.parentId := by
        rw [← hrep]
        unfold reparent
        rw [if_pos hpar]
      rw [hcp'par] at hp
      rcases hP l₁ cp₀ l₂ hleq x hpar with ⟨d, hdl₁, hdx, hds⟩
      have hdmem : d ∈ sd.checkpoints := by
        rw [hleq]
        exact List.mem_append_left _ hdl₁
      have hdc : d = c := List.inj_on_of_nodup_map hN hdmem hcmem (by rw [hdx, hcid])
      have hcl₁ : c ∈ l₁ := hdc ▸ hdl₁
      have hcs : c.sessionId = cp₀.sessionId := hdc ▸ hds
      rcases List.append_of_mem hcl₁ with ⟨u, v, huv⟩
      have hleq2 : sd.checkpoints = u ++ c :: (v ++ cp₀ :: l₂) := by
        rw [hleq, huv]
        simp
      rcases hP u c (v ++ cp₀ :: l₂) hleq2 p hp with ⟨e, heu, hep, hes⟩
      have hpx : p ≠ x := by
        intro hpxeq
        have hemem : e ∈ sd.checkpoints := by
          rw [hleq2]
          exact List.mem_append_left _ heu
        have hedc : e = c := List.inj_on_of_nodup_map hN hemem hcmem
          (by rw [hep, hpxeq, hcid])
        have hcin : c.id ∉ idsOf u := by
          have hN2 := hN
          rw [hleq2, idsOf, List.map_append, List.map_cons] at hN2
          have hmid := List.nodup_middle.mp hN2
          rcases List.nodup_cons.mp hmid with ⟨hni, _⟩
          intro hmem2
          exact hni (List.mem_append_left _ hmem2)
        exact hcin (by
          rw [← hedc]
          exact List.mem_map.mpr ⟨e, heu, rfl⟩)
      refine ⟨reparent x c.parentId e, ?_, ?_, ?_⟩
      · apply List.mem_filter.mpr
        refine ⟨List.mem_map.mpr ⟨e, ?_, rfl⟩, ?_⟩
        · rw [huv]
          exact List.mem_append_left _ heu
        · rw [reparent_id]
          simp [hep, hpx]
      · rw [reparent_id]
        exact hep
      · rw [reparent_sessionId, hes, hcs, hsid]
    · have hcp'par : cp'.parentId = cp₀.parentId := by
        rw [← hrep]
        unfold reparent
        rw [if_neg hpar]
      rw [hcp'par] at hp
      have hpx : p ≠ x := by
        intro hpxeq
        rw [hpxeq] at hp
        exact hpar hp
      rcases hP l₁ cp₀ l₂ hleq p hp with ⟨d, hdl₁, hdp, hds⟩
      refine ⟨reparent x c.parentId d, ?_, ?_, ?_⟩
      · apply List.mem_filter.mpr
        refine ⟨List.mem_map.mpr ⟨d, hdl₁, rfl⟩, ?_⟩
        rw [reparent_id]
        simp [hdp, hpx]
      · rw [reparent_id]
        exact hdp
      · rw [reparent_sessionId, hsid]
        exact hds

/-- Iterated deletion preserves both store invariants. -/
theorem foldDeletes_inv : ∀ (ids : List String) (sd : StorageData),
    (idsOf sd.checkpoints).Nodup → PInv sd.checkpoints →
    (idsOf (foldDeletes sd ids).checkpoints).Nodup ∧ PInv (foldDeletes sd ids).checkpoints
  | [], sd, hN, hP => ⟨hN, hP⟩
  | x :: ids, sd, hN, hP => by
    have hstep : foldDeletes sd (x :: ids) = foldDeletes (deleteCheckpoint sd x).1 ids := by
      simp [foldDeletes]
    rw [hstep]
    exact foldDeletes_inv ids (deleteCheckpoint sd x).1
      (deleteCheckpoint_nodup sd x hN) (PInv_delete sd x hN hP)

/-- A finished parent walk stays finished on any longer budget. -/
theorem parentIter_none_mono (l : List Checkpoint) :
    ∀ (n : Nat) (c : Checkpoint), parentIter l n c = none →
      parentIter l (n + 1) c = none
  | 0, c, h => by simp [parentIter] at h
  | n + 1, c, h => by
    unfold parentIter at h ⊢
    cases hpo : parentOf l c with
    | none => rfl
    | some d =>
      rw [hpo] at h
      have h' : parentIter l n d = none := h
      show parentIter l (n + 1) d = none
      exact parentIter_none_mono l n d h'


theorem parentIter_none_le (l : List Checkpoint) (m : Nat) :
    ∀ (m' : Nat), m ≤ m' → ∀ (c : Checkpoint), parentIter l m c = none →
      parentIter l m' c = none := by
  intro m' hm
  induction hm with
  | refl => exact fun c h => h
  | step hle ih =>
    intro c h
    exact parentIter_none_mono l _ c (ih c h)

/-- Under the invariants, following `parentId` links from a checkpoint at
prefix-depth `< n` exhausts within `n` steps. -/
theorem parentIter_terminates (l : List Checkpoint)
    (hN : (idsOf l).Nodup) (hP : PInv l) :
    ∀ (n : Nat) (l₁ : List Checkpoint) (c : Checkpoint) (l₂ : List Checkpoint),
      l = l₁ ++ c :: l₂ → l₁.length < n → parentIter l n c = none
  | 0, _, _, _, _, hlt => by omega
  | n + 1, l₁, c, l₂, heq, hlt => by
    unfold parentIter
    cases hpid : c.parentId with
    | none =>
      unfold parentOf
      rw [hpid]
      rfl
    | some p =>
      rcases hP l₁ c l₂ heq p hpid with ⟨d, hdl₁, hdp, _⟩
      have hdl : d ∈ l := by
        rw [heq]
        exact List.mem_append_left _ hdl₁
      cases hfind : l.find? (fun e => e.id == p) with
      | none =>
        unfold parentOf
        rw [hpid]
        show (l.find? (fun e => e.id == p)).bind (parentIter l n) = none
        rw [hfind]
        rfl
      | some d' =>
        have hd'p : d'.id = p := by simpa using List.find?_some hfind
        have hd'mem : d' ∈ l := List.mem_of_find?_eq_some hfind
        have hdd : d' = d := List.inj_on_of_nodup_map hN hd'mem hdl (by rw [hd'p, hdp])
        subst hdd
        rcases List.append_of_mem hdl₁ with ⟨u, v, huv⟩
        have heq2 : l = u ++ d' :: (v ++ c :: l₂) := by
          rw [heq, huv]
          simp
        have hu : u.length < n := by
          have : u.length < l₁.length := by
            rw [huv]
            simp
          omega
        have hnone : parentIter l n d' = none :=
          parentIter_terminates l hN hP n u d' (v ++ c :: l₂) heq2 hu
        unfold parentOf
        rw [hpid]
        show (l.find? (fun e => e.id == p)).bind (parentIter l n) = none
        rw [hfind]
        show parentIter l n d' = none
        exact hnone

/-- Retention enforcement preserves both invariants and introduces no new
ids. -/
theorem enforce_inv (sd : StorageData)
    (hN : (idsOf sd.checkpoints).Nodup) (hP : PInv sd.checkpoints) :
    (idsOf (enforceCheckpointLimit sd).checkpoints).Nodup ∧
    PInv (enforceCheckpointLimit sd).checkpoints ∧
    (∀ i ∈ idsOf (enforceCheckpointLimit sd).checkpoints, i ∈ idsOf sd.checkpoints) := by
  unfold enforceCheckpointLimit
  by_cases hle : sd.checkpoints.length ≤ sd.settings.maxCheckpoints
  · rw [if_pos hle]
    exact ⟨hN, hP, fun i hi => hi⟩
  · rw [if_neg hle]
    refine ⟨(foldDeletes_inv _ sd hN hP).1, (foldDeletes_inv _ sd hN hP).2, ?_⟩
    intro i hi
    have hi' : i ∈ idsOf (foldDeletes sd (pickToDelete sd.checkpoints.length
        sd.settings.maxCheckpoints (sd.checkpoints.mergeSort
        (fun a b => a.timestamp ≤ b.timestamp)) 0)).checkpoints := hi
    rw [foldDeletes_ids _ sd hN] at hi'
    exact (List.mem_filter.mp hi').1

/-- The shape of `createCheckpointCore`: enforcement applied to the store
with the new checkpoint appended. -/
theorem core_shape (sd : StorageData) (env : GitEnv) (id : String) (now : Nat)
    (autoName : String) (type : CheckpointType) (source : CheckpointSource)
    (files : List ChangedFile) (opts : CreateOptions) :
    ∃ mid : StorageData,
      (createCheckpointCore sd env id now autoName type source files opts).1 =
        enforceCheckpointLimit mid ∧
      mid.checkpoints = sd.checkpoints ++
        [(createCheckpointCore sd env id now autoName type source files opts).2] :=
  ⟨_, rfl, rfl⟩

/-- The new checkpoint's id is the supplied fresh id. -/
theorem core_cp_id (sd : StorageData) (env : GitEnv) (id : String) (now : Nat)
    (autoName : String) (type : CheckpointType) (source : CheckpointSource)
    (files : List ChangedFile) (opts : CreateOptions) :
    (createCheckpointCore sd env id now autoName type source files opts).2.id = id := rfl

/-- The new checkpoint's parent, when set, is a stored checkpoint of the
same session. -/
theorem core_cp_parent (sd : StorageData) (env : GitEnv) (id : String) (now : Nat)
    (autoName : String) (type : CheckpointType) (source : CheckpointSource)
    (files : List ChangedFile) (opts : CreateOptions) :
    ∀ p, (createCheckpointCore sd env id now autoName type source files opts).2.parentId = some p →
      ∃ d ∈ sd.checkpoints, d.id = p ∧
        d.sessionId = (createCheckpointCore sd env id now autoName type source files opts).2.sessionId := by
  intro p hp
  have hp' : ((if strTruthy sd.activeSessionId = true
      then getSessionCheckpoints sd (sd.activeSessionId.getD "") else []).head?.map (·.id)) = some p := hp
  by_cases hact : strTruthy sd.activeSessionId = true
  · rw [if_pos hact] at hp'
    cases hl : getSessionCheckpoints sd (sd.activeSessionId.getD "") with
    | nil =>
      rw [hl] at hp'
      simp at hp'
    | cons h t =>
      rw [hl] at hp'
      simp only [List.head?_cons, Option.map_some] at hp'
      have hmem : h ∈ getSessionCheckpoints sd (sd.activeSessionId.getD "") := by
        rw [hl]
        exact List.mem_cons_self _ _
      unfold getSessionCheckpoints at hmem
      have hmem2 := List.mem_mergeSort.mp hmem
      rcases List.mem_filter.mp hmem2 with ⟨hml, hms⟩
      refine ⟨h, hml, by simpa using hp', ?_⟩
      have : h.sessionId = sd.activeSessionId.getD "" := by simpa using hms
      rw [this]
      rfl
  · rw [if_neg hact] at hp'
    simp at hp'

/-- `createCheckpointCore` preserves the invariants given a fresh id, and
adds at most that id. -/
theorem core_inv (sd : StorageData) (env : GitEnv) (id : String) (now : Nat)
    (autoName : String) (type : CheckpointType) (source : CheckpointSource)
    (files : List ChangedFile) (opts : CreateOptions)
    (hN : (idsOf sd.checkpoints).Nodup) (hP : PInv sd.checkpoints)
    (hid : id ∉ idsOf sd.checkpoints) :
    (idsOf (createCheckpointCore sd env id now autoName type source files opts).1.checkpoints).Nodup ∧
    PInv (createCheckpointCore sd env id now autoName type source files opts).1.checkpoints ∧
    (∀ i ∈ idsOf (createCheckpointCore sd env id now autoName type source files opts).1.checkpoints,
      i ∈ idsOf sd.checkpoints ∨ i = id) := by
  rcases core_shape sd env id now autoName type source files opts with ⟨mid, hm1, hm2⟩
  have hNmid : (idsOf mid.checkpoints).Nodup := by
    rw [hm2]
    unfold idsOf
    rw [List.map_append, List.map_cons, List.map_nil]
    rw [show (sd.checkpoints.map (·.id)) ++
        [(createCheckpointCore sd env id now autoName type source files opts).2.id] =
        (sd.checkpoints.map (·.id)) ++
        (createCheckpointCore sd env id now autoName type source files opts).2.id :: [] from rfl]
    rw [core_cp_id]
    apply List.nodup_middle.mpr
    rw [List.append_nil]
    exact List.nodup_cons.mpr ⟨hid, hN⟩
  have hPmid : PInv mid.checkpoints := by
    rw [hm2]
    apply PInv_append _ _ hP
    exact core_cp_parent sd env id now autoName type source files opts
  rw [hm1]
  rcases enforce_inv mid hNmid hPmid with ⟨hN2, hP2, hsub⟩
  refine ⟨hN2, hP2, ?_⟩
  intro i hi
  have := hsub i hi
  rw [hm2] at this
  unfold idsOf at this
  rw [List.map_append, List.map_cons, List.map_nil, core_cp_id] at this
  rcases List.mem_append.mp this with hl | hr
  · exact Or.inl hl
  · simp at hr
    exact Or.inr hr

theorem endSession_checkpoints (sd : StorageData) (now : Nat) :
    (endSession sd now).checkpoints = sd.checkpoints := by
  unfold endSession
  cases getActiveSession sd <;> rfl

/-- The shape of `startSession`: a checkpoint-creation body run on a store
with the same checkpoints. -/
theorem startSession_shape (sd : StorageData) (now : Nat) (sessId : String)
    (nameOpt : Option String) (cpId : String) (cpNow : Nat) (env : SessionStartEnv) :
    ∃ (mid : StorageData) (opts : CreateOptions),
      (startSession sd now sessId nameOpt cpId cpNow env).1 =
        (createCheckpointCore mid env.cpEnv cpId cpNow "" .sessionStart .user [] opts).1 ∧
      mid.checkpoints = sd.checkpoints := by
  unfold startSession
  by_cases hact : strTruthy sd.activeSessionId = true
  · rw [if_pos hact]
    dsimp only
    refine ⟨_, _, rfl, ?_⟩
    rw [endSession_checkpoints]
  · rw [if_neg hact]
    dsimp only
    refine ⟨_, _, rfl, ?_⟩
    rfl

/-- `createCheckpoint` (with its session-bootstrap path) preserves the
invariants given fresh ids. -/
theorem createCheckpoint_inv (sd : StorageData) (boot : SessionBootstrap)
    (env : GitEnv) (id : String) (now : Nat) (autoName : String)
    (type : CheckpointType) (source : CheckpointSource)
    (files : List ChangedFile) (opts : CreateOptions)
    (hN : (idsOf sd.checkpoints).Nodup) (hP : PInv sd.checkpoints)
    (hid : id ∉ idsOf sd.checkpoints) (hbootid : boot.cpId ∉ idsOf sd.checkpoints)
    (hneq : id ≠ boot.cpId) :
    (idsOf (createCheckpoint sd boot env id now autoName type source files opts).1.checkpoints).Nodup ∧
    PInv (createCheckpoint sd boot env id now autoName type source files opts).1.checkpoints := by
  unfold createCheckpoint
  by_cases hact : strTruthy sd.activeSessionId = true
  · rw [if_pos hact]
    rcases core_inv sd env id now autoName type source files opts hN hP hid with ⟨h1, h2, _⟩
    exact ⟨h1, h2⟩
  · rw [if_neg hact]
    rcases startSession_shape sd now boot.sessId none boot.cpId now boot.env with
      ⟨mid, sopts, hs1, hs2⟩
    rw [hs1]
    have hNmid : (idsOf mid.checkpoints).Nodup := by rw [hs2]; exact hN
    have hPmid : PInv mid.checkpoints := by rw [hs2]; exact hP
    have hbootmid : boot.cpId ∉ idsOf mid.checkpoints := by rw [hs2]; exact hbootid
    rcases core_inv mid boot.env.cpEnv boot.cpId now "" .sessionStart .user [] sopts
      hNmid hPmid hbootmid with ⟨hN1, hP1, hsub1⟩
    have hid1 : id ∉ idsOf (createCheckpointCore mid boot.env.cpEnv boot.cpId now ""
        .sessionStart .user [] sopts).1.checkpoints := by
      intro hmem
      rcases hsub1 id hmem with hl | hr
      · rw [hs2] at hl
        exact hid hl
      · exact hneq hr
    rcases core_inv _ env id now autoName type source files opts hN1 hP1 hid1 with
      ⟨h1, h2, _⟩
    exact ⟨h1, h2⟩

/-- Both invariants hold along every freshness-respecting run. -/
theorem runOps_inv : ∀ (ops : List Op) (sd : StorageData),
    (idsOf sd.checkpoints).Nodup → PInv sd.checkpoints → opsFresh sd ops →
    (idsOf (runOps sd ops).checkpoints).Nodup ∧ PInv (runOps sd ops).checkpoints
  | [], sd, hN, hP, _ => ⟨hN, hP⟩
  | op :: ops, sd, hN, hP, hF => by
    rcases hF with ⟨hF1, hF2⟩
    have hstep : (idsOf (applyOp sd op).checkpoints).Nodup ∧ PInv (applyOp sd op).checkpoints := by
      cases op with
      | create a =>
        exact createCheckpoint_inv sd a.boot a.env a.id a.now a.autoName a.type
          a.source a.changedFiles a.opts hN hP hF1.1 hF1.2.1 hF1.2.2
      | delete x =>
        exact ⟨deleteCheckpoint_nodup sd x hN, PInv_delete sd x hN hP⟩
    exact runOps_inv ops (applyOp sd op) hstep.1 hstep.2 hF2

/-- C5: along every sequence of `createCheckpoint`/`deleteCheckpoint`
operations from an empty store (with never-repeating generated ids), each
stored checkpoint's `parentId` (when set) names a checkpoint stored
strictly earlier — created before it — in the same session, and following
`parentId` links from any checkpoint terminates within `length` steps (no
cycles). -/
theorem parentChain_invariant (s : Settings) (ops : List Op)
    (hfresh : opsFresh (initialStore s) ops) :
    PInv (runOps (initialStore s) ops).checkpoints ∧
    (∀ cp ∈ (runOps (initialStore s) ops).checkpoints,
      parentIter (runOps (initialStore s) ops).checkpoints
        ((runOps (initialStore s) ops).checkpoints.length) cp = none) := by
  have hinit : (idsOf (initialStore s).checkpoints).Nodup := by
    simp [initialStore, idsOf]
  have hinitP : PInv (initialStore s).checkpoints := by
    intro l₁ cp l₂ heq
    exact absurd heq (by simp [initialStore])
  rcases runOps_inv ops (initialStore s) hinit hinitP hfresh with ⟨hN, hP⟩
  refine ⟨hP, ?_⟩
  intro cp hcp
  rcases List.append_of_mem hcp with ⟨l₁, l₂, heq⟩
  apply parentIter_terminates _ hN hP _ l₁ cp l₂ heq
  rw [heq]
  simp

/-- A concrete single-create run for the C5 witness. -/
def opC5 : Op :=
  .create { boot := bootC9, env := gitOffEnv, id := "w1", now := 3, autoName := "a"
            type := .manual, source := .user, changedFiles := [], opts := {} }

/-- Witness for C5 at a concrete one-operation run. -/
theorem parentChain_invariant_witness :
    opsFresh (initialStore defaultSettings) [opC5] ∧
    (PInv (runOps (initialStore defaultSettings) [opC5]).checkpoints ∧
     (∀ cp ∈ (runOps (initialStore defaultSettings) [opC5]).checkpoints,
       parentIter (runOps (initialStore defaultSettings) [opC5]).checkpoints
         ((runOps (initialStore defaultSettings) [opC5]).checkpoints.length) cp = none)) :=
  ⟨⟨⟨by simp [initialStore, idsOf], by simp [initialStore, idsOf], by decide⟩, trivial⟩,
   parentChain_invariant defaultSettings [opC5]
     ⟨⟨by simp [initialStore, idsOf], by simp [initialStore, idsOf], by decide⟩, trivial⟩⟩

end Guardian













